import Mathlib

/-!
# snake3d: the game logic of `snake.cpp`, `game.cpp` and `camera_controller.cpp`

The C++ program is embedded shallowly.

* `float` values are elements of an arbitrary linearly ordered field `K` with a floor
  function (exact arithmetic, no rounding); the concrete evaluations use `K = ℚ`, and
  `K = ℝ` with `Real.sqrt` where an exact square root of every number is needed.
* The functions of the external C maths library (`sqrtf`, `cosf`, `sinf`) and raylib's
  `DEG2RAD` are not part of the repository: they are the fields of a `Libm` record that
  every function using them takes as a parameter.
* `rand()` is a stream `rand : ℕ → ℕ` of non-negative values read through a cursor
  (`randPos`) that is part of the game state.
* Key presses and the frame time of one frame are the fields of `Input`.
* Operations whose C++ behaviour is undefined (`front()`, `back()` or `[0]` on an empty
  vector, `%` by zero) return `none`.
* The `int` addition `score += 10` wraps to 32 bits in two's complement, which is what the
  compiled program does when the sum leaves the range of `int`.
* GPU resources (models, textures, materials) and drawing are left out.
-/

namespace Snake3D

/-- The external numeric functions used by the program: `sqrtf`, `cosf`, `sinf` from the C
maths library and the constant `DEG2RAD` from raylib. -/
structure Libm (K : Type) where
  sqrtf : K → K
  cosf : K → K
  sinf : K → K
  DEG2RAD : K

/-- The raylib type `Vector3`. -/
structure Vector3 (K : Type) where
  x : K
  y : K
  z : K
deriving DecidableEq

/-- The enumeration `Direction` of `snake.h`. -/
inductive Direction where
  | UP
  | DOWN
  | LEFT
  | RIGHT
deriving DecidableEq

/-- The enumeration `ObstacleType` of `game.h`. -/
inductive ObstacleType where
  | TREE
  | ROCK
deriving DecidableEq

section Raymath

variable {K : Type} [LinearOrderedField K]

/-- The raymath function `Vector3Add`. -/
def Vector3Add (v1 v2 : Vector3 K) : Vector3 K :=
  ⟨v1.x + v2.x, v1.y + v2.y, v1.z + v2.z⟩

/-- The raymath function `Vector3Subtract`. -/
def Vector3Subtract (v1 v2 : Vector3 K) : Vector3 K :=
  ⟨v1.x - v2.x, v1.y - v2.y, v1.z - v2.z⟩

/-- The raymath function `Vector3Scale`. -/
def Vector3Scale (v : Vector3 K) (scalar : K) : Vector3 K :=
  ⟨v.x * scalar, v.y * scalar, v.z * scalar⟩

/-- The raymath function `Vector3Length`: `sqrtf(x*x + y*y + z*z)`. -/
def Vector3Length (m : Libm K) (v : Vector3 K) : K :=
  m.sqrtf (v.x * v.x + v.y * v.y + v.z * v.z)

/-- The raymath function `Vector3Distance`: `sqrtf(dx*dx + dy*dy + dz*dz)` with
`dx = v2.x - v1.x` and so on. -/
def Vector3Distance (m : Libm K) (v1 v2 : Vector3 K) : K :=
  let dx := v2.x - v1.x
  let dy := v2.y - v1.y
  let dz := v2.z - v1.z
  m.sqrtf (dx * dx + dy * dy + dz * dz)

/-- The raymath function `Vector3Normalize`: the vector is scaled by `1/length` unless its
length is zero. -/
def Vector3Normalize (m : Libm K) (v : Vector3 K) : Vector3 K :=
  let length := m.sqrtf (v.x * v.x + v.y * v.y + v.z * v.z)
  if length ≠ 0 then
    let ilength := 1 / length
    ⟨v.x * ilength, v.y * ilength, v.z * ilength⟩
  else v

end Raymath

/-- The value of the `size_t` expression `size - 3` for a vector of `n` elements: the
subtraction is unsigned and wraps modulo `2^64`. -/
def sizeMinus3 (n : Nat) : Nat := (n + (2 ^ 64 - 3)) % 2 ^ 64

/-- The value stored in a 32-bit `int` for the arithmetic result `x`: the result itself
when it lies in `[-2^31, 2^31 - 1]`, else the two's complement wrap-around. -/
def wrapInt32 (x : Int) : Int := (x + 2 ^ 31) % 2 ^ 32 - 2 ^ 31

/-- The private data of class `Snake` (`snake.h`), without the model and the texture. -/
structure Snake (K : Type) where
  segments : List (Vector3 K)
  targetPositions : List (Vector3 K)
  direction : Direction
  nextDirection : Direction
  shouldGrow : Bool
  moveSpeed : K
  isMoving : Bool

namespace Snake

variable {K : Type} [LinearOrderedField K]

/-- The constructor `Snake::Snake()`: the two vectors start empty. -/
def ctor : Snake K :=
  { segments := []
    targetPositions := []
    direction := Direction.RIGHT
    nextDirection := Direction.RIGHT
    shouldGrow := false
    moveSpeed := 5
    isMoving := false }

/-- The three start segments pushed by `Initialize` and `Reset`. -/
def startSegments (startPos : Vector3 K) : List (Vector3 K) :=
  [startPos,
   ⟨startPos.x - 1, startPos.y, startPos.z⟩,
   ⟨startPos.x - 2, startPos.y, startPos.z⟩]

/-- The method `Snake::Initialize` (`snake.cpp`, lines 18-44), without the GPU assets. -/
def Initialize (s : Snake K) (startPos : Vector3 K) : Snake K :=
  { s with
    segments := startSegments startPos
    targetPositions := startSegments startPos
    direction := Direction.RIGHT
    nextDirection := Direction.RIGHT
    shouldGrow := false
    isMoving := false }

/-- The method `Snake::Reset` (`snake.cpp`, lines 46-60). -/
def Reset (s : Snake K) (startPos : Vector3 K) : Snake K :=
  { s with
    direction := Direction.RIGHT
    nextDirection := Direction.RIGHT
    shouldGrow := false
    isMoving := false
    segments := startSegments startPos
    targetPositions := startSegments startPos }

/-- The loop `for (int i = size - 1; i > 0; --i) targetPositions[i] = targetPositions[i - 1];`
of `Snake::Move`. The first argument is the number of iterations still to run, so the
iteration run at `i + 1` is the source's iteration with loop variable `i + 1`. -/
def shiftTargets : Nat → List (Vector3 K) → List (Vector3 K)
  | 0, tp => tp
  | i + 1, tp =>
    match tp[i]? with
    | some v => shiftTargets i (tp.set (i + 1) v)
    | none => shiftTargets i tp

/-- The `switch (direction)` of `Snake::Move`: the head target moves by one grid unit. -/
def stepHead (d : Direction) (v : Vector3 K) : Vector3 K :=
  match d with
  | Direction.UP => { v with z := v.z - 1 }
  | Direction.DOWN => { v with z := v.z + 1 }
  | Direction.LEFT => { v with x := v.x - 1 }
  | Direction.RIGHT => { v with x := v.x + 1 }

/-- The method `Snake::Move` (`snake.cpp`, lines 62-102). With an empty target list
`targetPositions.back()` is undefined: the result is `none`. -/
def Move (s : Snake K) : Option (Snake K) :=
  if s.isMoving then some s
  else
    let direction := s.nextDirection
    match s.targetPositions.getLast? with
    | none => none
    | some lastPosition =>
      match shiftTargets (s.targetPositions.length - 1) s.targetPositions with
      | [] => none
      | t0 :: rest =>
        let targetPositions := stepHead direction t0 :: rest
        if s.shouldGrow then
          some { s with
            direction := direction
            targetPositions := targetPositions ++ [lastPosition]
            segments := s.segments ++ [lastPosition]
            shouldGrow := false
            isMoving := true }
        else
          some { s with
            direction := direction
            targetPositions := targetPositions
            isMoving := true }

/-- One iteration of the follow loop of `Snake::Update` for segment `i`: snap to the target
when closer than `moveDelta`, else advance by `moveDelta` along the normalised direction. -/
def followStep (m : Libm K) (baseSpeed deltaTime : K) (i : Nat)
    (segment target : Vector3 K) : Vector3 K :=
  let segmentSpeed := baseSpeed * (1 + 0.1 * (i : K))
  let moveDelta := segmentSpeed * deltaTime
  if Vector3Distance m segment target < moveDelta then target
  else
    let moveDir := Vector3Normalize m (Vector3Subtract target segment)
    Vector3Add segment (Vector3Scale moveDir moveDelta)

/-- The loop `for (i = 1; i < segments.size(); ++i)` of `Snake::Update`, run from index `i`
on the segments and targets from that index on. A segment without a target
(`i >= targetPositions.size()`) is left as it is. -/
def followLoop (m : Libm K) (baseSpeed deltaTime : K) :
    Nat → List (Vector3 K) → List (Vector3 K) → List (Vector3 K)
  | _, [], _ => []
  | _, s :: ss, [] => s :: ss
  | i, s :: ss, t :: ts =>
    followStep m baseSpeed deltaTime i s t :: followLoop m baseSpeed deltaTime (i + 1) ss ts

/-- The base speed computed by `Snake::Update`:
`fmin(moveSpeed * (1 + (segments.size() - 3) * 0.05), moveSpeed * 3)`. -/
def baseSpeed (s : Snake K) : K :=
  min (s.moveSpeed * (1 + (sizeMinus3 s.segments.length : K) * 0.05)) (s.moveSpeed * 3)

/-- The method `Snake::Update` (`snake.cpp`, lines 104-139). With an empty segment or target
list `segments[0]` or `targetPositions[0]` is undefined: the result is `none`. -/
def Update (m : Libm K) (s : Snake K) (deltaTime : K) : Option (Snake K) :=
  if !s.isMoving then some s
  else
    let baseSpeed := s.baseSpeed
    match s.segments, s.targetPositions with
    | head :: body, target :: targets =>
      if Vector3Distance m head target < baseSpeed * deltaTime then
        some { s with
          segments := target :: followLoop m baseSpeed deltaTime 1 body targets
          isMoving := false }
      else
        let moveDir := Vector3Normalize m (Vector3Subtract target head)
        let head := Vector3Add head (Vector3Scale moveDir (baseSpeed * deltaTime))
        some { s with
          segments := head :: followLoop m baseSpeed deltaTime 1 body targets }
    | _, _ => none

/-- The method `Snake::Grow` (`snake.cpp`, lines 141-143). -/
def Grow (s : Snake K) : Snake K :=
  { s with shouldGrow := true }

/-- The method `Snake::SetDirection` (`snake.cpp`, lines 185-196). -/
def SetDirection (s : Snake K) (dir : Direction) : Snake K :=
  if (dir = Direction.LEFT ∧ s.direction = Direction.RIGHT) ∨
     (dir = Direction.RIGHT ∧ s.direction = Direction.LEFT) ∨
     (dir = Direction.UP ∧ s.direction = Direction.DOWN) ∨
     (dir = Direction.DOWN ∧ s.direction = Direction.UP) then s
  else { s with nextDirection := dir }

/-- The method `Snake::GetLength`: the number of segments as a `float`. -/
def GetLength (s : Snake K) : K := (s.segments.length : K)

end Snake

/-- The fields of raylib's `Camera3D` that the program reads or writes (the projection mode
is a constant). -/
structure Camera3D (K : Type) where
  position : Vector3 K
  target : Vector3 K
  up : Vector3 K
  fovy : K

/-- The private data of class `CameraController` (`camera_controller.h`). The pointer
`snake` always points to the snake of the owning game once set, so only whether it is
non-null is recorded (`hasSnake`); the snake itself is passed to `Update`. -/
structure CameraController (K : Type) where
  camera : Camera3D K
  hasSnake : Bool
  targetPosition : Vector3 K
  cameraDistance : K
  minDistance : K
  maxDistance : K
  distancePerSegment : K
  cameraAngle : K

namespace CameraController

variable {K : Type} [LinearOrderedField K]

/-- The constructor `CameraController::CameraController()`. The members `camera` and
`targetPosition` are not initialised by the constructor and are taken as arguments. -/
def ctor (camera : Camera3D K) (targetPosition : Vector3 K) : CameraController K :=
  { camera := camera
    hasSnake := false
    targetPosition := targetPosition
    cameraDistance := 20
    minDistance := 18
    maxDistance := 30
    distancePerSegment := 0.4
    cameraAngle := 135 }

/-- The method `CameraController::Initialize` (`camera_controller.cpp`, lines 17-30). -/
def Initialize (c : CameraController K) : CameraController K :=
  let height : K := 12
  let position : Vector3 K := ⟨c.cameraDistance, height, c.cameraDistance⟩
  { c with
    hasSnake := true
    camera := { position := position, target := ⟨0, 0, 0⟩, up := ⟨0, 1, 0⟩, fovy := 45 }
    targetPosition := position }

/-- The method `CameraController::Update` (`camera_controller.cpp`, lines 32-65); `snake` is
the object the pointer refers to when it is not null. -/
def Update (m : Libm K) (c : CameraController K) (snake : Snake K) : CameraController K :=
  if !c.hasSnake then c
  else
    match snake.segments with
    | [] => c
    | head :: _ =>
      let desiredDistance :=
        min (c.minDistance + c.distancePerSegment * (snake.GetLength - 3)) c.maxDistance
      let cameraDistance := c.cameraDistance * 0.95 + desiredDistance * 0.05
      let height := cameraDistance * 0.6
      let targetPosition : Vector3 K :=
        ⟨head.x + cameraDistance * m.cosf (c.cameraAngle * m.DEG2RAD),
         height,
         head.z + cameraDistance * m.sinf (c.cameraAngle * m.DEG2RAD)⟩
      { c with
        cameraDistance := cameraDistance
        targetPosition := targetPosition
        camera :=
          { c.camera with
            target := head
            position :=
              ⟨c.camera.position.x * 0.95 + targetPosition.x * 0.05,
               c.camera.position.y * 0.95 + targetPosition.y * 0.05,
               c.camera.position.z * 0.95 + targetPosition.z * 0.05⟩ } }

end CameraController

/-- The struct `Obstacle` of `game.h`. -/
structure Obstacle (K : Type) where
  type : ObstacleType
  position : Vector3 K
  scale : K
  rotation : K

/-- The private data of class `Game` (`game.h`), without the GPU models and the texture.
`score` and `maxObstacles` are C `int`s; additions to `score` go through `wrapInt32`,
and `maxObstacles` is only compared. `randPos` is the number of `rand()` calls made so
far. -/
structure Game (K : Type) where
  snake : Snake K
  cameraController : CameraController K
  applePosition : Vector3 K
  obstacles : List (Obstacle K)
  maxObstacles : Int
  arenaSize : K
  moveTimer : K
  moveInterval : K
  gameOver : Bool
  score : Int
  randPos : Nat

/-- What one call of `Game::Update` reads from raylib: `GetFrameTime()` and the
`IsKeyPressed` answers for the nine keys. -/
structure Input (K : Type) where
  deltaTime : K
  KEY_R : Bool
  KEY_UP : Bool
  KEY_DOWN : Bool
  KEY_RIGHT : Bool
  KEY_LEFT : Bool
  KEY_W : Bool
  KEY_S : Bool
  KEY_D : Bool
  KEY_A : Bool

/-- The local variables of the `while` loop of `Game::SpawnApple`, with the `rand()`
cursor. -/
structure AppleSearch (K : Type) where
  x : K
  z : K
  validPosition : Bool
  attempts : Nat
  randPos : Nat

/-- The local variables of the `while` loop of `Game::GenerateObstacles`, with the `rand()`
cursor. -/
structure ObstacleSearch (K : Type) where
  obs : Obstacle K
  validPosition : Bool
  attempts : Nat
  randPos : Nat

section Casts

variable {K : Type} [LinearOrderedField K] [FloorRing K]

/-- The C conversion `(int)x` of a `float`: truncation toward zero. -/
def truncToInt (x : K) : Int := if 0 ≤ x then ⌊x⌋ else ⌈x⌉

/-- The expression `(float)(rand() % modulus - offset)` for the `rand()` value at cursor
`pos`. The dividend is non-negative, so C's `%` agrees with the integer `%` used here. -/
def randCoord (rand : Nat → Nat) (pos : Nat) (modulus : Int) (offset : K) : K :=
  ((((rand pos : Nat) : Int) % modulus : Int) : K) - offset

end Casts

namespace Game

variable {K : Type} [LinearOrderedField K] [FloorRing K]

/-- The constructor `Game::Game()`. The snake and the camera controller are built by their
own constructors; `applePosition` is not initialised and is taken as an argument. -/
def ctor (camera : Camera3D K) (targetPosition applePosition : Vector3 K) (randPos : Nat) :
    Game K :=
  { snake := Snake.ctor
    cameraController := CameraController.ctor camera targetPosition
    applePosition := applePosition
    obstacles := []
    maxObstacles := 15
    arenaSize := 20
    moveTimer := 0
    moveInterval := 0.2
    gameOver := false
    score := 0
    randPos := randPos }

/-- The `obstacleRadius` of `Game::SpawnApple`: `0.7` for a tree, `0.8` for a rock. -/
def obstacleRadius (t : ObstacleType) : K :=
  match t with
  | ObstacleType.TREE => 0.7
  | ObstacleType.ROCK => 0.8

/-- The first `for` loop in the body of the `while` loop of `Game::SpawnApple`: is the
candidate `(x, 0.5, z)` closer than `1.0` to some snake segment? -/
def appleNearSnake (m : Libm K) (g : Game K) (x z : K) : Bool :=
  g.snake.segments.any (fun segment => Vector3Distance m ⟨x, 0.5, z⟩ segment < 1)

/-- The second `for` loop in the body of the `while` loop of `Game::SpawnApple`: is the
candidate closer than `obstacleRadius + 1.0` to some obstacle? -/
def appleNearObstacle (m : Libm K) (g : Game K) (x z : K) : Bool :=
  g.obstacles.any (fun obs =>
    Vector3Distance m ⟨x, 0.5, z⟩ obs.position < obstacleRadius obs.type + 1)

/-- One iteration of the `while` loop of `Game::SpawnApple` (`game.cpp`, lines 277-302). A
failed check draws a new `x` and `z` and leaves the loop over the list (`break`). -/
def appleAttempt (m : Libm K) (rand : Nat → Nat) (g : Game K) (st : AppleSearch K) :
    AppleSearch K :=
  let modulus := truncToInt (g.arenaSize * 2)
  if appleNearSnake m g st.x st.z then
    { x := randCoord rand st.randPos modulus g.arenaSize
      z := randCoord rand (st.randPos + 1) modulus g.arenaSize
      validPosition := false
      attempts := st.attempts + 1
      randPos := st.randPos + 2 }
  else if appleNearObstacle m g st.x st.z then
    { x := randCoord rand st.randPos modulus g.arenaSize
      z := randCoord rand (st.randPos + 1) modulus g.arenaSize
      validPosition := false
      attempts := st.attempts + 1
      randPos := st.randPos + 2 }
  else
    { st with validPosition := true, attempts := st.attempts + 1 }

/-- The loop `while (!validPosition && attempts < 50)` of `Game::SpawnApple`; the first
argument bounds the number of iterations (50 is enough, as `attempts` grows by one). -/
def appleLoop (m : Libm K) (rand : Nat → Nat) (g : Game K) :
    Nat → AppleSearch K → AppleSearch K
  | 0, st => st
  | fuel + 1, st =>
    if !st.validPosition && decide (st.attempts < 50) then
      appleLoop m rand g fuel (appleAttempt m rand g st)
    else st

/-- The local variables of `Game::SpawnApple` when its `while` loop has ended. -/
def appleSearch (m : Libm K) (rand : Nat → Nat) (g : Game K) : AppleSearch K :=
  let modulus := truncToInt (g.arenaSize * 2)
  appleLoop m rand g 50
    { x := randCoord rand g.randPos modulus g.arenaSize
      z := randCoord rand (g.randPos + 1) modulus g.arenaSize
      validPosition := false
      attempts := 0
      randPos := g.randPos + 2 }

/-- The method `Game::SpawnApple` (`game.cpp`, lines 267-306). When `(int)(arenaSize * 2)` is
zero, `rand() % 0` is undefined: the result is `none`. -/
def SpawnApple (m : Libm K) (rand : Nat → Nat) (g : Game K) : Option (Game K) :=
  if truncToInt (g.arenaSize * 2) = 0 then none
  else
    let st := appleSearch m rand g
    some { g with applePosition := ⟨st.x, 0.5, st.z⟩, randPos := st.randPos }

/-- The body of the obstacle loop of `Game::CheckCollision`: the trunk test for a tree
(horizontal distance below `0.3 * scale`), the sphere test for a rock (distance below
`0.7 * scale`). -/
def hitsObstacle (m : Libm K) (head : Vector3 K) (obs : Obstacle K) : Bool :=
  match obs.type with
  | ObstacleType.TREE =>
    let trunkPosition : Vector3 K := ⟨obs.position.x, obs.position.y + 0.4, obs.position.z⟩
    let dx := head.x - trunkPosition.x
    let dz := head.z - trunkPosition.z
    let horizontalDistance := m.sqrtf (dx * dx + dz * dz)
    decide (horizontalDistance < 0.3 * obs.scale)
  | ObstacleType.ROCK =>
    decide (Vector3Distance m head obs.position < 0.7 * obs.scale)

/-- The method `Game::CheckCollision` (`game.cpp`, lines 308-364): the returned `bool` and
the game state it leaves. With an empty segment list `segments.front()` is undefined: the
result is `none`. -/
def CheckCollision (m : Libm K) (rand : Nat → Nat) (g : Game K) : Option (Bool × Game K) :=
  match g.snake.segments with
  | [] => none
  | head :: body =>
    if Vector3Distance m head g.applePosition < 1 then
      match SpawnApple m rand { g with snake := g.snake.Grow } with
      | none => none
      | some g1 =>
        some (false,
          { g1 with
            score := wrapInt32 (g1.score + 10)
            moveInterval :=
              max 0.08 (0.2 - (sizeMinus3 g1.snake.segments.length : K) * 0.005) })
    else if head.x < -g.arenaSize ∨ head.x > g.arenaSize ∨
        head.z < -g.arenaSize ∨ head.z > g.arenaSize then
      some (true, g)
    else if body.any (fun segment => Vector3Distance m head segment < 0.5) then
      some (true, g)
    else if g.obstacles.any (hitsObstacle m head) then
      some (true, g)
    else some (false, g)

/-- The method `Game::IsPositionFree` (`game.cpp`, lines 409-425). -/
def IsPositionFree (m : Libm K) (g : Game K) (position : Vector3 K) (radius : K) : Bool :=
  if g.obstacles.any (fun obs => Vector3Distance m position obs.position < radius * 2) then
    false
  else
    let margin := radius * 1.2
    if position.x > g.arenaSize - margin ∨ position.x < -g.arenaSize + margin ∨
        position.z > g.arenaSize - margin ∨ position.z < -g.arenaSize + margin then
      false
    else true

/-- One iteration of the `while` loop of `Game::GenerateObstacles` (`game.cpp`,
lines 382-400). -/
def obstacleAttempt (m : Libm K) (rand : Nat → Nat) (g : Game K) (st : ObstacleSearch K) :
    ObstacleSearch K :=
  let modulus := truncToInt (g.arenaSize * 1.8)
  let x := randCoord rand st.randPos modulus (g.arenaSize * 0.9)
  let z := randCoord rand (st.randPos + 1) modulus (g.arenaSize * 0.9)
  if Vector3Length m ⟨x, 0, z⟩ < 4 then
    { st with attempts := st.attempts + 1, randPos := st.randPos + 2 }
  else
    let obs : Obstacle K :=
      { st.obs with
        position := ⟨x, 0, z⟩
        rotation := ((rand (st.randPos + 2) % 360 : Nat) : K)
        scale := 0.8 + ((rand (st.randPos + 3) % 50 : Nat) : K) / 100 }
    { obs := obs
      validPosition :=
        if IsPositionFree m g obs.position
            (if obs.type = ObstacleType.TREE then 1 else 0.8) then true
        else st.validPosition
      attempts := st.attempts + 1
      randPos := st.randPos + 4 }

/-- The loop `while (!validPosition && attempts < 20)` of `Game::GenerateObstacles`; the
first argument bounds the number of iterations (20 is enough). -/
def obstacleLoop (m : Libm K) (rand : Nat → Nat) (g : Game K) :
    Nat → ObstacleSearch K → ObstacleSearch K
  | 0, st => st
  | fuel + 1, st =>
    if !st.validPosition && decide (st.attempts < 20) then
      obstacleLoop m rand g fuel (obstacleAttempt m rand g st)
    else st

/-- The local variables of one iteration of the `for` loop of `Game::GenerateObstacles` when
its `while` loop has ended. The members of `obs` other than `type` are not initialised
before the loop; they start at zero here and are never read before being assigned. -/
def obstacleSearch (m : Libm K) (rand : Nat → Nat) (g : Game K) : ObstacleSearch K :=
  obstacleLoop m rand g 20
    { obs :=
        { type := if rand g.randPos % 2 = 0 then ObstacleType.TREE else ObstacleType.ROCK
          position := ⟨0, 0, 0⟩
          scale := 0
          rotation := 0 }
      validPosition := false
      attempts := 0
      randPos := g.randPos + 1 }

/-- One iteration of the `for` loop of `Game::GenerateObstacles` (one obstacle slot). -/
def placeObstacle (m : Libm K) (rand : Nat → Nat) (g : Game K) : Game K :=
  let st := obstacleSearch m rand g
  if st.validPosition then
    { g with obstacles := g.obstacles ++ [st.obs], randPos := st.randPos }
  else { g with randPos := st.randPos }

/-- The loop `for (int i = 0; i < maxObstacles; i++)` of `Game::GenerateObstacles`, with the
number of iterations still to run. -/
def obstacleSlots (m : Libm K) (rand : Nat → Nat) : Nat → Game K → Game K
  | 0, g => g
  | n + 1, g => obstacleSlots m rand n (placeObstacle m rand g)

/-- The method `Game::GenerateObstacles` (`game.cpp`, lines 366-407). When the loop runs and
`(int)(arenaSize * 1.8)` is zero, `rand() % 0` is undefined: the result is `none`. -/
def GenerateObstacles (m : Libm K) (rand : Nat → Nat) (g : Game K) : Option (Game K) :=
  if 0 < g.maxObstacles ∧ truncToInt (g.arenaSize * 1.8) = 0 then none
  else some (obstacleSlots m rand g.maxObstacles.toNat { g with obstacles := [] })

/-- The method `Game::Initialize` (`game.cpp`, lines 20-50), without the GPU assets. -/
def Initialize (m : Libm K) (rand : Nat → Nat) (g : Game K) : Option (Game K) :=
  let g1 : Game K :=
    { g with
      snake := g.snake.Initialize ⟨0, 0.5, 0⟩
      cameraController := g.cameraController.Initialize }
  match GenerateObstacles m rand g1 with
  | none => none
  | some g2 => SpawnApple m rand g2

/-- The first `if`/`else if` chain of `Game::Update`: the arrow keys. -/
def handleArrows (inp : Input K) (s : Snake K) : Snake K :=
  if inp.KEY_UP then s.SetDirection Direction.UP
  else if inp.KEY_DOWN then s.SetDirection Direction.DOWN
  else if inp.KEY_RIGHT then s.SetDirection Direction.RIGHT
  else if inp.KEY_LEFT then s.SetDirection Direction.LEFT
  else s

/-- The second `if`/`else if` chain of `Game::Update`: the keys W, S, D, A. -/
def handleWASD (inp : Input K) (s : Snake K) : Snake K :=
  if inp.KEY_W then s.SetDirection Direction.UP
  else if inp.KEY_S then s.SetDirection Direction.DOWN
  else if inp.KEY_D then s.SetDirection Direction.RIGHT
  else if inp.KEY_A then s.SetDirection Direction.LEFT
  else s

/-- Lines 65-100 of `Game::Update` (the playing branch up to `moveTimer += deltaTime`): the
keys are handled, the snake is interpolated and the move timer advanced. -/
def frameStart (m : Libm K) (g : Game K) (inp : Input K) : Option (Game K) :=
  let deltaTime := inp.deltaTime
  match (handleWASD inp (handleArrows inp g.snake)).Update m deltaTime with
  | none => none
  | some snake => some { g with snake := snake, moveTimer := g.moveTimer + deltaTime }

/-- Lines 102-103 of `Game::Update`: `snake.Move(); moveTimer = 0.0f;`. -/
def moveTick (g : Game K) : Option (Game K) :=
  match g.snake.Move with
  | none => none
  | some snake => some { g with snake := snake, moveTimer := 0 }

/-- Lines 101-109 of `Game::Update`: the body run when the move timer has fired, ending with
the collision check that may set `gameOver`. -/
def timerFired (m : Libm K) (rand : Nat → Nat) (g : Game K) : Option (Game K) :=
  match moveTick g with
  | none => none
  | some g1 =>
    match CheckCollision m rand g1 with
    | none => none
    | some (collision, g2) =>
      if collision then some { g2 with gameOver := true } else some g2

/-- The method `Game::Update` (`game.cpp`, lines 52-113). -/
def Update (m : Libm K) (rand : Nat → Nat) (g : Game K) (inp : Input K) : Option (Game K) :=
  if g.gameOver then
    if inp.KEY_R then
      match SpawnApple m rand { g with snake := g.snake.Reset ⟨0, 0.5, 0⟩ } with
      | none => none
      | some g1 => some { g1 with moveInterval := 0.2, score := 0, gameOver := false }
    else some g
  else
    match frameStart m g inp with
    | none => none
    | some g1 =>
      match (if g1.moveTimer ≥ g1.moveInterval then timerFired m rand g1 else some g1) with
      | none => none
      | some g2 =>
        some { g2 with cameraController := g2.cameraController.Update m g2.snake }

end Game

/-! ## Notions used to state the properties -/

/-- The opposite of a direction: `LEFT`/`RIGHT` and `UP`/`DOWN` are the two opposite pairs. -/
def Direction.opposite : Direction → Direction
  | Direction.UP => Direction.DOWN
  | Direction.DOWN => Direction.UP
  | Direction.LEFT => Direction.RIGHT
  | Direction.RIGHT => Direction.LEFT

/-- The snake states reachable from `Initialize` or `Reset` by a sequence of calls of
`SetDirection`, `Grow`, `Move` and `Update`. -/
inductive Snake.Reachable {K : Type} [LinearOrderedField K] (m : Libm K) : Snake K → Prop
  | ofInitialize (s : Snake K) (startPos : Vector3 K) : Reachable m (s.Initialize startPos)
  | ofReset (s : Snake K) (startPos : Vector3 K) : Reachable m (s.Reset startPos)
  | setDirection {s : Snake K} (dir : Direction) :
      Reachable m s → Reachable m (s.SetDirection dir)
  | grow {s : Snake K} : Reachable m s → Reachable m s.Grow
  | move {s s' : Snake K} : Reachable m s → s.Move = some s' → Reachable m s'
  | update {s s' : Snake K} (deltaTime : K) :
      Reachable m s → s.Update m deltaTime = some s' → Reachable m s'

/-- What `GenerateObstacles` checks of an obstacle before storing it in the game `g`: it
lies on the ground, at least `4.0` from the centre, with a scale in `[0.8, 1.3]`, and at
least `2 * r` from every obstacle already stored (`r = 1.0` for a tree, `0.8` for a
rock). -/
def Game.Accepted {K : Type} [LinearOrderedField K] (m : Libm K) (g : Game K)
    (obs : Obstacle K) : Prop :=
  obs.position.y = 0 ∧ 4 ≤ Vector3Length m obs.position ∧
  0.8 ≤ obs.scale ∧ obs.scale ≤ 1.3 ∧
  ∀ other ∈ g.obstacles,
    2 * (if obs.type = ObstacleType.TREE then (1 : K) else 0.8)
      ≤ Vector3Distance m obs.position other.position

/-- An obstacle list in which every obstacle passed the checks of `GenerateObstacles`
against the obstacles before it. -/
def Game.WellPlaced {K : Type} [LinearOrderedField K] (m : Libm K)
    (obstacles : List (Obstacle K)) : Prop :=
  (∀ obs ∈ obstacles, obs.position.y = 0 ∧ 4 ≤ Vector3Length m obs.position ∧
    0.8 ≤ obs.scale ∧ obs.scale ≤ 1.3) ∧
  obstacles.Pairwise (fun earlier later =>
    2 * (if later.type = ObstacleType.TREE then (1 : K) else 0.8)
      ≤ Vector3Distance m later.position earlier.position)

/-- The library's `sqrtf` is the exact square root of real arithmetic: on a non-negative
argument it returns the non-negative number with that square. -/
def Libm.ExactSqrt {K : Type} [LinearOrderedField K] (m : Libm K) : Prop :=
  ∀ x : K, 0 ≤ x → 0 ≤ m.sqrtf x ∧ m.sqrtf x * m.sqrtf x = x

/-- The unit step of a direction on the grid: `UP` is `-z`, `DOWN` is `+z`, `LEFT` is `-x`,
`RIGHT` is `+x`. -/
def Direction.unitStep {K : Type} [LinearOrderedField K] : Direction → Vector3 K
  | Direction.UP => ⟨0, 0, -1⟩
  | Direction.DOWN => ⟨0, 0, 1⟩
  | Direction.LEFT => ⟨-1, 0, 0⟩
  | Direction.RIGHT => ⟨1, 0, 0⟩

/-- Two grid positions that differ by exactly one unit along exactly one of the `x` and `z`
axes (and have the same `y`). -/
def GridNeighbours {K : Type} [LinearOrderedField K] (a b : Vector3 K) : Prop :=
  a.y = b.y ∧
  (((a.x - b.x = 1 ∨ a.x - b.x = -1) ∧ a.z = b.z) ∨
    (a.x = b.x ∧ (a.z - b.z = 1 ∨ a.z - b.z = -1)))

/-- The snake states reachable from `Initialize` or `Reset` at the start position
`startPos` by a sequence of calls of `SetDirection`, `Grow`, `Move` and `Update`. -/
inductive Snake.ReachableFrom {K : Type} [LinearOrderedField K] (m : Libm K)
    (startPos : Vector3 K) : Snake K → Prop
  | ofInitialize (s : Snake K) : ReachableFrom m startPos (s.Initialize startPos)
  | ofReset (s : Snake K) : ReachableFrom m startPos (s.Reset startPos)
  | setDirection {s : Snake K} (dir : Direction) :
      ReachableFrom m startPos s → ReachableFrom m startPos (s.SetDirection dir)
  | grow {s : Snake K} : ReachableFrom m startPos s → ReachableFrom m startPos s.Grow
  | move {s s' : Snake K} :
      ReachableFrom m startPos s → s.Move = some s' → ReachableFrom m startPos s'
  | update {s s' : Snake K} (deltaTime : K) :
      ReachableFrom m startPos s → s.Update m deltaTime = some s' →
      ReachableFrom m startPos s'

/-- The camera controllers reachable from the constructor by `Initialize` calls and by
`Update` calls on snakes that have no segment or at least three. -/
inductive CameraController.Reachable {K : Type} [LinearOrderedField K] (m : Libm K) :
    CameraController K → Prop
  | ofCtor (camera : Camera3D K) (targetPosition : Vector3 K) :
      Reachable m (CameraController.ctor camera targetPosition)
  | ofInitialize {c : CameraController K} : Reachable m c → Reachable m c.Initialize
  | update {c : CameraController K} (snake : Snake K) :
      Reachable m c → (snake.segments = [] ∨ 3 ≤ snake.segments.length) →
      Reachable m (c.Update m snake)

/-- The `k`-th candidate position of a call of `SpawnApple` in the state `g`: its `x` and
`z` are computed from the `rand()` values number `2k` and `2k + 1` of the call. -/
def Game.appleCandidate {K : Type} [LinearOrderedField K] [FloorRing K]
    (rand : Nat → Nat) (g : Game K) (k : Nat) : Vector3 K :=
  ⟨randCoord rand (g.randPos + 2 * k) (truncToInt (g.arenaSize * 2)) g.arenaSize,
   0.5,
   randCoord rand (g.randPos + 2 * k + 1) (truncToInt (g.arenaSize * 2)) g.arenaSize⟩

/-- A position that is too close for an apple: closer than `1.0` to a snake segment, or
closer than `radius + 1.0` to an obstacle (radius `0.7` for a tree, `0.8` for a rock). -/
def Game.TooClose {K : Type} [LinearOrderedField K] (m : Libm K) (g : Game K)
    (p : Vector3 K) : Prop :=
  (∃ segment ∈ g.snake.segments, Vector3Distance m p segment < 1) ∨
  (∃ obs ∈ g.obstacles,
    (obs.type = ObstacleType.TREE ∧ Vector3Distance m p obs.position < 0.7 + 1) ∨
    (obs.type = ObstacleType.ROCK ∧ Vector3Distance m p obs.position < 0.8 + 1))

/-- The local variables of `SpawnApple` at the loop test that follows `k` failed attempts:
the current candidate is candidate `k`, drawn and not yet checked. -/
def Game.appleTrial {K : Type} [LinearOrderedField K] [FloorRing K]
    (rand : Nat → Nat) (g : Game K) (k : Nat) : AppleSearch K :=
  { x := (Game.appleCandidate rand g k).x
    z := (Game.appleCandidate rand g k).z
    validPosition := false
    attempts := k
    randPos := g.randPos + 2 * k + 2 }

/-! ## Concrete values for the evaluations -/

/-- A maths library over `ℚ` for concrete evaluations: `Rat.sqrt` is the exact square root
on squares of rationals, `cosf` and `sinf` are Taylor polynomials, and `DEG2RAD` is
raylib's `PI / 180` with `PI = 3.14159265358979323846`. -/
def ratLibm : Libm ℚ :=
  { sqrtf := Rat.sqrt
    cosf := fun x => 1 - x ^ 2 / 2 + x ^ 4 / 24 - x ^ 6 / 720
    sinf := fun x => x - x ^ 3 / 6 + x ^ 5 / 120 - x ^ 7 / 5040
    DEG2RAD := 3.14159265358979323846 / 180 }

/-- The snake right after `Reset` at the arena centre. -/
def startSnake : Snake ℚ := Snake.Reset Snake.ctor ⟨0, 0.5, 0⟩

/-- The start snake after one `Grow` call. -/
def grownSnake : Snake ℚ := startSnake.Grow

/-- The `rand()` stream that returns `0` at every call. -/
def zeroRand : Nat → Nat := fun _ => 0

/-- A camera controller after `Initialize`. -/
def startCamera : CameraController ℚ :=
  (CameraController.ctor ⟨⟨0, 0, 0⟩, ⟨0, 0, 0⟩, ⟨0, 1, 0⟩, 45⟩ ⟨0, 0, 0⟩).Initialize

/-- A playing state: the start snake, a tree and a rock, the apple at `(3, 0.5, 4)`, at
distance 5 from the head. -/
def playingGame : Game ℚ :=
  { snake := startSnake
    cameraController := startCamera
    applePosition := ⟨3, 0.5, 4⟩
    obstacles :=
      [{ type := ObstacleType.TREE, position := ⟨5, 0, 0⟩, scale := 1, rotation := 0 },
       { type := ObstacleType.ROCK, position := ⟨0, 0, -6⟩, scale := 1, rotation := 90 }]
    maxObstacles := 15
    arenaSize := 20
    moveTimer := 0
    moveInterval := 0.2
    gameOver := false
    score := 0
    randPos := 0 }

/-- The playing state with the apple on the head of the snake. -/
def eatingGame : Game ℚ := { playingGame with applePosition := ⟨0, 0.5, 0⟩ }

/-- A state in which the snake is leaving the arena through the wall `x = -20`: its head is
at `x = -20.5`, half a unit from the apple at `(-20, 0.5, 0)`. -/
def wallAppleGame : Game ℚ :=
  { playingGame with
    snake :=
      { segments := [⟨-41 / 2, 1 / 2, 0⟩, ⟨-39 / 2, 1 / 2, 0⟩, ⟨-37 / 2, 1 / 2, 0⟩]
        targetPositions := [⟨-21, 1 / 2, 0⟩, ⟨-20, 1 / 2, 0⟩, ⟨-19, 1 / 2, 0⟩]
        direction := Direction.LEFT
        nextDirection := Direction.LEFT
        shouldGrow := false
        moveSpeed := 5
        isMoving := true }
    applePosition := ⟨-20, 1 / 2, 0⟩ }

/-- The snake of `wallAppleGame` with the apple five units away, at `(-17.5, 0.5, 4)`. -/
def wallGame : Game ℚ := { wallAppleGame with applePosition := ⟨-35 / 2, 1 / 2, 4⟩ }

/-- A playing state whose snake lies along the wall `z = -20` with its head in the corner
cell `(-20, 0.5, -20)`, the only cell that `zeroRand` ever proposes for the apple. -/
def cornerGame : Game ℚ :=
  { playingGame with
    snake :=
      { segments := [⟨-20, 1 / 2, -20⟩, ⟨-19, 1 / 2, -20⟩, ⟨-18, 1 / 2, -20⟩]
        targetPositions := [⟨-20, 1 / 2, -20⟩, ⟨-19, 1 / 2, -20⟩, ⟨-18, 1 / 2, -20⟩]
        direction := Direction.LEFT
        nextDirection := Direction.LEFT
        shouldGrow := false
        moveSpeed := 5
        isMoving := false } }

/-- A frame of 1/60 s in which no key is pressed. -/
def idleInput : Input ℚ :=
  { deltaTime := 1 / 60
    KEY_R := false
    KEY_UP := false
    KEY_DOWN := false
    KEY_RIGHT := false
    KEY_LEFT := false
    KEY_W := false
    KEY_S := false
    KEY_D := false
    KEY_A := false }

/-- A frame of 1/60 s in which only R is pressed. -/
def restartInput : Input ℚ := { idleInput with KEY_R := true }

/-- A playing state in which the head has just arrived outside the wall `x = 20` (it rests
on its target `(21, 0.5, 0)`), the apple is five units away and the move timer is about to
fire. -/
def crashGame : Game ℚ :=
  { playingGame with
    snake :=
      { segments := [⟨21, 1 / 2, 0⟩, ⟨20, 1 / 2, 0⟩, ⟨19, 1 / 2, 0⟩]
        targetPositions := [⟨21, 1 / 2, 0⟩, ⟨20, 1 / 2, 0⟩, ⟨19, 1 / 2, 0⟩]
        direction := Direction.RIGHT
        nextDirection := Direction.RIGHT
        shouldGrow := false
        moveSpeed := 5
        isMoving := false }
    applePosition := ⟨18, 1 / 2, 4⟩
    moveTimer := 19 / 100 }

/-- The state `crashGame` after the game has ended. -/
def overGame : Game ℚ := { crashGame with gameOver := true, score := 30 }

/-- The state `crashGame` after the first part of a frame of 1/60 s without keys: the snake
is at rest, only the move timer advances. -/
def crashFrame : Game ℚ := { crashGame with moveTimer := 19 / 100 + 1 / 60 }

/-- The state `crashFrame` after `snake.Move(); moveTimer = 0`: the targets have advanced by
one cell, the segments have not moved yet. -/
def crashMoved : Game ℚ :=
  { crashFrame with
    snake :=
      { crashGame.snake with
        targetPositions := [⟨22, 1 / 2, 0⟩, ⟨21, 1 / 2, 0⟩, ⟨20, 1 / 2, 0⟩]
        isMoving := true }
    moveTimer := 0 }

/-- A freshly constructed game (`Game::Game()`), before `Initialize`. -/
def newGame : Game ℚ :=
  Game.ctor ⟨⟨0, 0, 0⟩, ⟨0, 0, 0⟩, ⟨0, 1, 0⟩, 45⟩ ⟨0, 0, 0⟩ ⟨0, 0, 0⟩ 0

/-- The start snake after its first `Move`: the targets are one cell ahead of the segments
and the snake is moving. Stated over any field, for evaluations over `ℚ` and over `ℝ`. -/
def steppedSnake (K : Type) [LinearOrderedField K] : Snake K :=
  { segments := [⟨0, 1 / 2, 0⟩, ⟨-1, 1 / 2, 0⟩, ⟨-2, 1 / 2, 0⟩]
    targetPositions := [⟨1, 1 / 2, 0⟩, ⟨0, 1 / 2, 0⟩, ⟨-1, 1 / 2, 0⟩]
    direction := Direction.RIGHT
    nextDirection := Direction.RIGHT
    shouldGrow := false
    moveSpeed := 5
    isMoving := true }

/-- The snake `steppedSnake` once every segment lies on its target while `isMoving` is still
set. -/
def arrivedSnake : Snake ℚ :=
  { steppedSnake ℚ with segments := [⟨1, 1 / 2, 0⟩, ⟨0, 1 / 2, 0⟩, ⟨-1, 1 / 2, 0⟩] }

/-- A `rand()` stream whose first candidate is the arena centre `(0, 0.5, 0)` and whose
second candidate is `(5, 0.5, 0)`. -/
def retryRand : Nat → Nat := fun n => if n = 2 then 25 else 20

/-- A playing state with the start snake (its head at the arena centre), a tree at
`(9, 0, 2)` and a rock at `(9, 0, -2)`. -/
def retryGame : Game ℚ :=
  { playingGame with
    obstacles :=
      [{ type := ObstacleType.TREE, position := ⟨9, 0, 2⟩, scale := 1, rotation := 0 },
       { type := ObstacleType.ROCK, position := ⟨9, 0, -2⟩, scale := 1, rotation := 90 }] }

/-! ## Properties of `Snake` -/

namespace Snake

section Lists

variable {K : Type}

theorem shiftTargets_length (k : Nat) (tp : List (Vector3 K)) :
    (shiftTargets k tp).length = tp.length := by
  induction k generalizing tp with
  | zero => rfl
  | succ k ih =>
    unfold shiftTargets
    cases h : tp[k]? with
    | none => simpa using ih tp
    | some v => simpa using ih (tp.set (k + 1) v)

/-- The shift loop reads only values not yet overwritten: entry `i` with `1 ≤ i ≤ k` ends as
the old entry `i - 1`, every other entry is kept. -/
theorem shiftTargets_getElem? (k : Nat) (tp : List (Vector3 K)) (hk : k < tp.length)
    (i : Nat) :
    (shiftTargets k tp)[i]? = if 1 ≤ i ∧ i ≤ k then tp[i - 1]? else tp[i]? := by
  induction k generalizing tp with
  | zero =>
    have : ¬ (1 ≤ i ∧ i ≤ 0) := by omega
    rw [if_neg this]
    rfl
  | succ k ih =>
    unfold shiftTargets
    have hk0 : k < tp.length := by omega
    rw [List.getElem?_eq_getElem hk0]
    simp only
    rw [ih _ (by simpa using hk0)]
    by_cases h1 : 1 ≤ i ∧ i ≤ k
    · have h2 : 1 ≤ i ∧ i ≤ k + 1 := by omega
      rw [if_pos h1, if_pos h2, List.getElem?_set_ne (by omega)]
    · rw [if_neg h1]
      by_cases h3 : i = k + 1
      · subst h3
        rw [if_pos (by omega), List.getElem?_set_self hk]
        simp [List.getElem?_eq_getElem hk0]
      · rw [if_neg (by omega), List.getElem?_set_ne (by omega)]

theorem shiftTargets_eq (t0 : Vector3 K) (ts : List (Vector3 K)) :
    shiftTargets ts.length (t0 :: ts) = t0 :: (t0 :: ts).dropLast := by
  apply List.ext_getElem?
  intro i
  rw [shiftTargets_getElem? _ _ (by simp)]
  cases i with
  | zero => simp
  | succ j =>
    simp only [List.getElem?_cons_succ, Nat.add_sub_cancel]
    by_cases hj : j < ts.length
    · rw [if_pos (by omega), List.dropLast_eq_take, List.getElem?_take_of_lt (by simpa using hj)]
    · rw [if_neg (by omega), List.dropLast_eq_take]
      rw [List.getElem?_eq_none (by omega), List.getElem?_eq_none (by simp; omega)]

end Lists

variable {K : Type} [LinearOrderedField K]

/-- The result of `Move` on a snake that is not moving and has at least one target. -/
theorem Move_eq_some (s : Snake K) (t0 : Vector3 K) (ts : List (Vector3 K))
    (hm : s.isMoving = false) (ht : s.targetPositions = t0 :: ts) :
    s.Move = some
      { s with
        direction := s.nextDirection
        targetPositions :=
          stepHead s.nextDirection t0 :: (t0 :: ts).dropLast ++
            (if s.shouldGrow then [(t0 :: ts).getLast (List.cons_ne_nil t0 ts)] else [])
        segments :=
          s.segments ++
            (if s.shouldGrow then [(t0 :: ts).getLast (List.cons_ne_nil t0 ts)] else [])
        shouldGrow := false
        isMoving := true } := by
  unfold Move
  rw [hm, ht]
  simp only [Bool.false_eq_true, if_false, List.length_cons, Nat.add_sub_cancel]
  rw [List.getLast?_eq_getLast _ (List.cons_ne_nil t0 ts), shiftTargets_eq]
  cases hg : s.shouldGrow <;> simp [hg]

end Snake

namespace Snake

variable {K : Type} [LinearOrderedField K]

/-- C5. `Snake::Move` is one grid step. A moving snake is left as it is. A snake that is not
moving and has `n ≥ 1` targets gets `direction = nextDirection`; its head target is the old
head target displaced by one unit (UP: `z - 1`, DOWN: `z + 1`, LEFT: `x - 1`, RIGHT:
`x + 1`, the other coordinates kept); target `i` is the old target `i - 1` for `1 ≤ i < n`;
`isMoving` is set; if `shouldGrow` was set, the old tail target is appended to both lists
(each grows by exactly one) and the flag is cleared, otherwise the segments and the number
of targets are unchanged. -/
theorem Move_one_grid_step (s : Snake K) :
    (s.isMoving = true → s.Move = some s) ∧
    (s.isMoving = false → 1 ≤ s.targetPositions.length →
      ∃ s' t0 t0' last,
        s.Move = some s' ∧
        s.targetPositions[0]? = some t0 ∧
        s.targetPositions.getLast? = some last ∧
        s'.direction = s.nextDirection ∧
        s'.targetPositions[0]? = some t0' ∧
        t0'.y = t0.y ∧
        (s.nextDirection = Direction.UP → t0'.x = t0.x ∧ t0'.z = t0.z - 1) ∧
        (s.nextDirection = Direction.DOWN → t0'.x = t0.x ∧ t0'.z = t0.z + 1) ∧
        (s.nextDirection = Direction.LEFT → t0'.x = t0.x - 1 ∧ t0'.z = t0.z) ∧
        (s.nextDirection = Direction.RIGHT → t0'.x = t0.x + 1 ∧ t0'.z = t0.z) ∧
        (∀ i, 1 ≤ i → i < s.targetPositions.length →
          s'.targetPositions[i]? = s.targetPositions[i - 1]?) ∧
        s'.isMoving = true ∧
        (s.shouldGrow = true →
          s'.targetPositions.length = s.targetPositions.length + 1 ∧
          s'.targetPositions[s.targetPositions.length]? = some last ∧
          s'.segments = s.segments ++ [last] ∧
          s'.shouldGrow = false) ∧
        (s.shouldGrow = false →
          s'.targetPositions.length = s.targetPositions.length ∧
          s'.segments = s.segments ∧
          s'.shouldGrow = false) ∧
        s'.nextDirection = s.nextDirection ∧
        s'.moveSpeed = s.moveSpeed) := by
  refine ⟨fun hm => by simp [Move, hm], fun hm hn => ?_⟩
  cases ht : s.targetPositions with
  | nil => simp [ht] at hn
  | cons t0 ts =>
    have hlen : ((t0 :: ts).dropLast).length = ts.length := by simp
    refine ⟨_, t0, stepHead s.nextDirection t0, (t0 :: ts).getLast (List.cons_ne_nil t0 ts),
      Move_eq_some s t0 ts hm ht, by simp, List.getLast?_eq_getLast _ _, rfl, by simp,
      ?_, ?_, ?_, ?_, ?_, ?_, rfl, ?_, ?_, rfl, rfl⟩
    · cases s.nextDirection <;> rfl
    · intro h; rw [h]; exact ⟨rfl, rfl⟩
    · intro h; rw [h]; exact ⟨rfl, rfl⟩
    · intro h; rw [h]; exact ⟨rfl, rfl⟩
    · intro h; rw [h]; exact ⟨rfl, rfl⟩
    · intro i hi1 hi2
      obtain ⟨j, rfl⟩ : ∃ j, i = j + 1 := ⟨i - 1, by omega⟩
      have hj : j < ts.length := by simpa using hi2
      simp only [List.cons_append, List.getElem?_cons_succ, Nat.add_sub_cancel]
      rw [List.getElem?_append_left (by omega), List.dropLast_eq_take,
        List.getElem?_take_of_lt (by simpa using hj)]
    · intro hg
      refine ⟨by simp [hg], ?_, by simp [hg], rfl⟩
      simp only [hg, if_true, List.cons_append, List.length_cons, List.getElem?_cons_succ]
      rw [List.getElem?_append_right (by omega)]
      simp
    · intro hg
      exact ⟨by simp [hg], by simp [hg], rfl⟩

/-- Witness of C5 on the start snake after `Grow`: the move appends a fourth target. -/
theorem Move_one_grid_step_witness :
    grownSnake.isMoving = false ∧ 1 ≤ grownSnake.targetPositions.length ∧
    ∃ s', grownSnake.Move = some s' ∧ s'.targetPositions.length = 4 ∧
      s'.direction = Direction.RIGHT := by
  refine ⟨rfl, by decide, ?_⟩
  obtain ⟨s', _, _, _, h, _, _, hd, _, _, _, _, _, _, _, _, hg, _⟩ :=
    (Move_one_grid_step grownSnake).2 rfl (by decide)
  exact ⟨s', h, (hg rfl).1, hd⟩

end Snake

namespace Snake

section Plain

variable {K : Type}

theorem SetDirection_direction (s : Snake K) (dir : Direction) :
    (s.SetDirection dir).direction = s.direction := by
  unfold SetDirection
  split <;> rfl

theorem SetDirection_targetPositions (s : Snake K) (dir : Direction) :
    (s.SetDirection dir).targetPositions = s.targetPositions := by
  unfold SetDirection
  split <;> rfl

/-- `SetDirection` never stores the opposite of the current direction. -/
theorem SetDirection_nextDirection (s : Snake K) (dir : Direction)
    (h : s.nextDirection ≠ s.direction.opposite) :
    (s.SetDirection dir).nextDirection ≠ (s.SetDirection dir).direction.opposite := by
  unfold SetDirection
  split
  · exact h
  · rename_i hno
    revert hno
    cases dir <;> cases hd : s.direction <;> simp [Direction.opposite]

theorem foldl_SetDirection_direction (ds : List Direction) (s : Snake K) :
    (ds.foldl SetDirection s).direction = s.direction := by
  induction ds generalizing s with
  | nil => rfl
  | cons d ds ih => rw [List.foldl_cons, ih, SetDirection_direction]

end Plain

theorem Direction.ne_opposite (d : Direction) : d ≠ d.opposite := by
  cases d <;> simp [Direction.opposite]

variable {K : Type} [LinearOrderedField K]

/-- `Update` touches only the segments and `isMoving`. -/
theorem Update_frame (m : Libm K) (s s' : Snake K) (deltaTime : K)
    (h : s.Update m deltaTime = some s') :
    s'.direction = s.direction ∧ s'.nextDirection = s.nextDirection ∧
    s'.targetPositions = s.targetPositions ∧ s'.shouldGrow = s.shouldGrow ∧
    s'.moveSpeed = s.moveSpeed := by
  unfold Update at h
  split at h
  · cases h; simp
  · dsimp only at h
    split at h
    · split at h <;> cases h <;> simp
    · cases h

/-- The direction after `Move` is the old `direction` (moving snake) or the old
`nextDirection`, and the pending direction is kept. -/
theorem Move_direction (s s' : Snake K) (h : s.Move = some s') :
    (s'.direction = s.direction ∨ s'.direction = s.nextDirection) ∧
    (s'.nextDirection = s.nextDirection) ∧
    (s.isMoving = false → s'.direction = s.nextDirection) ∧
    (s.targetPositions ≠ [] → s'.targetPositions ≠ []) := by
  cases hm : s.isMoving with
  | true =>
    have : s.Move = some s := by simp [Move, hm]
    rw [this] at h
    cases h
    simp
  | false =>
    cases ht : s.targetPositions with
    | nil => simp [Move, hm, ht] at h
    | cons t0 ts =>
      rw [Move_eq_some s t0 ts hm ht] at h
      cases h
      simp

/-- In a reachable state the pending direction is not the opposite of the current one, and
there is at least one target. -/
theorem Reachable.invariant (m : Libm K) (s : Snake K) (h : Reachable m s) :
    s.nextDirection ≠ s.direction.opposite ∧ s.targetPositions ≠ [] := by
  induction h with
  | ofInitialize s startPos => simp [Initialize, startSegments, Direction.opposite]
  | ofReset s startPos => simp [Reset, startSegments, Direction.opposite]
  | setDirection dir _ ih =>
    exact ⟨SetDirection_nextDirection _ dir ih.1, by
      rw [SetDirection_targetPositions]; exact ih.2⟩
  | grow _ ih => exact ih
  | move _ hmove ih =>
    obtain ⟨hd, hn, _, ht⟩ := Move_direction _ _ hmove
    refine ⟨?_, ht ih.2⟩
    rw [hn]
    rcases hd with hd | hd
    · rw [hd]; exact ih.1
    · rw [hd]; exact Direction.ne_opposite _
  | update deltaTime _ hupd ih =>
    obtain ⟨hd, hn, ht, _, _⟩ := Update_frame m _ _ deltaTime hupd
    rw [hd, hn, ht]
    exact ih

theorem foldl_SetDirection_reachable (m : Libm K) (ds : List Direction) (s : Snake K)
    (h : Reachable m s) : Reachable m (ds.foldl SetDirection s) := by
  induction ds generalizing s with
  | nil => exact h
  | cons d ds ih => exact ih _ (Reachable.setDirection d h)

/-- C6. The snake never makes a 180-degree turn. In every state reachable from `Initialize`
or `Reset` by `SetDirection`, `Grow`, `Move` and `Update` calls, `nextDirection` is not the
opposite of `direction`; `Move` returns, and the direction after it is not the opposite of
the direction before it, also after any further sequence `ds` of `SetDirection` calls. -/
theorem no_reverse_turn (m : Libm K) (s : Snake K) (h : Reachable m s) :
    s.nextDirection ≠ s.direction.opposite ∧
    ∀ ds : List Direction,
      ∃ s', (ds.foldl SetDirection s).Move = some s' ∧
        s'.direction ≠ s.direction.opposite := by
  refine ⟨(Reachable.invariant m s h).1, fun ds => ?_⟩
  have hr := foldl_SetDirection_reachable m ds s h
  obtain ⟨hinv, hne⟩ := Reachable.invariant m _ hr
  have hdir := foldl_SetDirection_direction ds s
  have hsome : ∃ s', (ds.foldl SetDirection s).Move = some s' := by
    cases hm : (ds.foldl SetDirection s).isMoving with
    | true => exact ⟨ds.foldl SetDirection s, by simp [Move, hm]⟩
    | false =>
      cases ht : (ds.foldl SetDirection s).targetPositions with
      | nil => exact absurd ht hne
      | cons t0 ts => exact ⟨_, Move_eq_some _ t0 ts hm ht⟩
  obtain ⟨s', hs'⟩ := hsome
  refine ⟨s', hs', ?_⟩
  obtain ⟨hd, _, _, _⟩ := Move_direction _ s' hs'
  rcases hd with hd | hd
  · rw [hd, hdir]; exact Direction.ne_opposite _
  · rw [hd, ← hdir]; exact hinv

/-- Witness of C6: the start snake, told to go `UP` and then `LEFT` (the reverse of its
direction `RIGHT`, refused), moves `UP`. -/
theorem no_reverse_turn_witness :
    Reachable ratLibm startSnake ∧
    ∃ s', ([Direction.UP, Direction.LEFT].foldl SetDirection startSnake).Move = some s' ∧
      s'.direction ≠ startSnake.direction.opposite :=
  ⟨Reachable.ofReset Snake.ctor ⟨0, 0.5, 0⟩,
    (no_reverse_turn ratLibm startSnake (Reachable.ofReset Snake.ctor ⟨0, 0.5, 0⟩)).2
      [Direction.UP, Direction.LEFT]⟩

end Snake

/-! ## Properties of `Game::CheckCollision` -/

namespace Game

section Scans

variable {K : Type} [LinearOrderedField K]

/-- Membership in the tail of the segment list, by index. -/
theorem exists_body_index {α : Type} (head : α) (body : List α) (p : α → Prop) :
    (∃ x ∈ body, p x) ↔ ∃ i, 1 ≤ i ∧ ∃ x, (head :: body)[i]? = some x ∧ p x := by
  constructor
  · rintro ⟨x, hx, hp⟩
    obtain ⟨n, hn⟩ := List.mem_iff_getElem?.mp hx
    exact ⟨n + 1, by omega, x, by simpa using hn, hp⟩
  · rintro ⟨i, hi, x, hx, hp⟩
    obtain ⟨j, rfl⟩ : ∃ j, i = j + 1 := ⟨i - 1, by omega⟩
    rw [List.getElem?_cons_succ] at hx
    exact ⟨x, List.mem_iff_getElem?.mpr ⟨j, hx⟩, hp⟩

/-- The obstacle loop of `CheckCollision` hits iff some tree is hit at its trunk or some
rock within its sphere. -/
theorem any_hitsObstacle (m : Libm K) (head : Vector3 K) (obstacles : List (Obstacle K)) :
    obstacles.any (hitsObstacle m head) = true ↔
      (∃ obs ∈ obstacles, obs.type = ObstacleType.TREE ∧
        m.sqrtf ((head.x - obs.position.x) * (head.x - obs.position.x) +
          (head.z - obs.position.z) * (head.z - obs.position.z)) < 0.3 * obs.scale) ∨
      (∃ obs ∈ obstacles, obs.type = ObstacleType.ROCK ∧
        Vector3Distance m head obs.position < 0.7 * obs.scale) := by
  rw [List.any_eq_true]
  constructor
  · rintro ⟨obs, hmem, hhit⟩
    unfold hitsObstacle at hhit
    cases ht : obs.type with
    | TREE =>
      rw [ht] at hhit
      exact Or.inl ⟨obs, hmem, ht, by simpa using hhit⟩
    | ROCK =>
      rw [ht] at hhit
      exact Or.inr ⟨obs, hmem, ht, by simpa using hhit⟩
  · rintro (⟨obs, hmem, ht, hhit⟩ | ⟨obs, hmem, ht, hhit⟩)
    · refine ⟨obs, hmem, ?_⟩
      unfold hitsObstacle
      rw [ht]
      simpa using hhit
    · refine ⟨obs, hmem, ?_⟩
      unfold hitsObstacle
      rw [ht]
      simpa using hhit

/-- The two scans of one attempt find a neighbour exactly when the candidate is too
close. -/
theorem tooClose_iff (m : Libm K) (g : Game K) (x z : K) :
    (appleNearSnake m g x z = true ∨ appleNearObstacle m g x z = true) ↔
      TooClose m g ⟨x, 0.5, z⟩ := by
  unfold appleNearSnake appleNearObstacle TooClose
  rw [List.any_eq_true, List.any_eq_true]
  apply or_congr
  · simp only [decide_eq_true_eq]
  · constructor
    · rintro ⟨obs, hmem, hlt⟩
      refine ⟨obs, hmem, ?_⟩
      simp only [decide_eq_true_eq] at hlt
      cases ht : obs.type with
      | TREE => rw [ht] at hlt; exact Or.inl ⟨rfl, hlt⟩
      | ROCK => rw [ht] at hlt; exact Or.inr ⟨rfl, hlt⟩
    · rintro ⟨obs, hmem, ⟨ht, hlt⟩ | ⟨ht, hlt⟩⟩
      · exact ⟨obs, hmem, by simp only [decide_eq_true_eq]; rw [ht]; exact hlt⟩
      · exact ⟨obs, hmem, by simp only [decide_eq_true_eq]; rw [ht]; exact hlt⟩

end Scans

variable {K : Type} [LinearOrderedField K] [FloorRing K]

/-- `SpawnApple` returns whenever the modulus `(int)(arenaSize * 2)` is not zero; it writes
only `applePosition` and the `rand()` cursor. -/
theorem SpawnApple_eq_some (m : Libm K) (rand : Nat → Nat) (g : Game K)
    (hmod : truncToInt (g.arenaSize * 2) ≠ 0) :
    SpawnApple m rand g = some
      { g with
        applePosition := ⟨(appleSearch m rand g).x, 0.5, (appleSearch m rand g).z⟩
        randPos := (appleSearch m rand g).randPos } := by
  unfold SpawnApple
  rw [if_neg hmod]

/-- `CheckCollision` when the head is not closer than `1.0` to the apple: the three
remaining checks, in the order of the source, and an unchanged state. -/
theorem CheckCollision_far (m : Libm K) (rand : Nat → Nat) (g : Game K)
    (head : Vector3 K) (body : List (Vector3 K)) (hs : g.snake.segments = head :: body)
    (hfar : 1 ≤ Vector3Distance m head g.applePosition) :
    CheckCollision m rand g = some
      ((decide (head.x < -g.arenaSize ∨ head.x > g.arenaSize ∨
          head.z < -g.arenaSize ∨ head.z > g.arenaSize) ||
        body.any (fun segment => Vector3Distance m head segment < 0.5) ||
        g.obstacles.any (hitsObstacle m head)), g) := by
  unfold CheckCollision
  rw [hs]
  simp only [if_neg (not_lt.mpr hfar)]
  by_cases hw : head.x < -g.arenaSize ∨ head.x > g.arenaSize ∨
      head.z < -g.arenaSize ∨ head.z > g.arenaSize
  · simp [hw]
  · rw [if_neg hw]
    cases hb : body.any (fun segment => decide (Vector3Distance m head segment < 0.5))
    · cases ho : g.obstacles.any (hitsObstacle m head) <;> simp [hw]
    · simp [hw]

/-- `CheckCollision` when the head is closer than `1.0` to the apple: the apple branch runs
and returns `false` before any other check. -/
theorem CheckCollision_near (m : Libm K) (rand : Nat → Nat) (g : Game K)
    (head : Vector3 K) (body : List (Vector3 K)) (hs : g.snake.segments = head :: body)
    (hnear : Vector3Distance m head g.applePosition < 1)
    (hmod : truncToInt (g.arenaSize * 2) ≠ 0) :
    CheckCollision m rand g = some (false,
      { g with
        snake := g.snake.Grow
        applePosition :=
          ⟨(appleSearch m rand { g with snake := g.snake.Grow }).x, 0.5,
           (appleSearch m rand { g with snake := g.snake.Grow }).z⟩
        randPos := (appleSearch m rand { g with snake := g.snake.Grow }).randPos
        score := wrapInt32 (g.score + 10)
        moveInterval := max 0.08 (0.2 - (sizeMinus3 g.snake.segments.length : K) * 0.005) }) := by
  unfold CheckCollision
  rw [hs]
  simp only [if_pos hnear]
  rw [SpawnApple_eq_some m rand { g with snake := g.snake.Grow } hmod]
  simp [Snake.Grow, hs]

/-- C2. For every game state whose head (first segment) is at distance at least `1.0` from
the apple, `CheckCollision` returns, changes no state, and returns `true` exactly when the
head's `x` or `z` is outside `[-arenaSize, arenaSize]`, or a segment of index at least 1 is
closer than `0.5` to the head, or a tree is at horizontal distance below `0.3 * scale` from
the head, or a rock is at distance below `0.7 * scale` from the head. -/
theorem CheckCollision_without_apple (m : Libm K) (rand : Nat → Nat) (g : Game K)
    (head : Vector3 K) (hhead : g.snake.segments[0]? = some head)
    (hfar : 1 ≤ Vector3Distance m head g.applePosition) :
    ∃ collision, CheckCollision m rand g = some (collision, g) ∧
      (collision = true ↔
        ((head.x < -g.arenaSize ∨ head.x > g.arenaSize ∨
            head.z < -g.arenaSize ∨ head.z > g.arenaSize) ∨
          (∃ i, 1 ≤ i ∧ ∃ segment, g.snake.segments[i]? = some segment ∧
            Vector3Distance m head segment < 0.5) ∨
          (∃ obs ∈ g.obstacles, obs.type = ObstacleType.TREE ∧
            m.sqrtf ((head.x - obs.position.x) * (head.x - obs.position.x) +
              (head.z - obs.position.z) * (head.z - obs.position.z)) < 0.3 * obs.scale) ∨
          (∃ obs ∈ g.obstacles, obs.type = ObstacleType.ROCK ∧
            Vector3Distance m head obs.position < 0.7 * obs.scale))) := by
  cases hs : g.snake.segments with
  | nil => simp [hs] at hhead
  | cons h0 body =>
    have hh : h0 = head := by simpa [hs] using hhead
    subst hh
    refine ⟨_, CheckCollision_far m rand g h0 body hs hfar, ?_⟩
    rw [Bool.or_eq_true, Bool.or_eq_true, decide_eq_true_iff, any_hitsObstacle,
      List.any_eq_true, or_assoc]
    simp only [decide_eq_true_iff]
    rw [exists_body_index h0 body (fun x => Vector3Distance m h0 x < 0.5)]

end Game

/-! ## Evaluations on concrete states -/

section Evaluations

theorem ratLibm_sqrtf_zero : ratLibm.sqrtf 0 = 0 := by
  simp [ratLibm]

theorem ratLibm_sqrtf_quarter : ratLibm.sqrtf (1 / 4) = 1 / 2 := by
  have h := Rat.sqrt_eq (1 / 2)
  have h2 : (1 / 2 : ℚ) * (1 / 2) = 1 / 4 := by norm_num
  rw [h2, abs_of_pos (by norm_num)] at h
  exact h

theorem ratLibm_sqrtf_25 : ratLibm.sqrtf 25 = 5 := by
  have h := Rat.sqrt_eq 5
  have h2 : (5 : ℚ) * 5 = 25 := by norm_num
  rw [h2, abs_of_pos (by norm_num)] at h
  exact h

theorem truncToInt_40 {K : Type} [LinearOrderedField K] [FloorRing K] :
    truncToInt ((20 : K) * 2) = 40 := by
  unfold truncToInt
  norm_num

theorem playingGame_far :
    (1 : ℚ) ≤ Vector3Distance ratLibm ⟨0, 0.5, 0⟩ playingGame.applePosition := by
  have h : Vector3Distance ratLibm ⟨0, 0.5, 0⟩ playingGame.applePosition = 5 := by
    simp only [Vector3Distance, playingGame]
    norm_num
    exact ratLibm_sqrtf_25
  rw [h]
  norm_num

theorem eatingGame_near :
    Vector3Distance ratLibm ⟨0, 0.5, 0⟩ eatingGame.applePosition < (1 : ℚ) := by
  have h : Vector3Distance ratLibm ⟨0, 0.5, 0⟩ eatingGame.applePosition = 0 := by
    simp only [Vector3Distance, eatingGame]
    norm_num
    exact ratLibm_sqrtf_zero
  rw [h]
  norm_num

theorem wallAppleGame_near :
    Vector3Distance ratLibm ⟨-41 / 2, 1 / 2, 0⟩ wallAppleGame.applePosition < (1 : ℚ) := by
  have h : Vector3Distance ratLibm ⟨-41 / 2, 1 / 2, 0⟩ wallAppleGame.applePosition
      = 1 / 2 := by
    simp only [Vector3Distance, wallAppleGame]
    norm_num
    exact ratLibm_sqrtf_quarter
  rw [h]
  norm_num

theorem wallGame_far :
    (1 : ℚ) ≤ Vector3Distance ratLibm ⟨-41 / 2, 1 / 2, 0⟩ wallGame.applePosition := by
  have h : Vector3Distance ratLibm ⟨-41 / 2, 1 / 2, 0⟩ wallGame.applePosition = 5 := by
    simp only [Vector3Distance, wallGame]
    norm_num
    exact ratLibm_sqrtf_25
  rw [h]
  norm_num

end Evaluations

namespace Game

section Interval

variable {K : Type} [LinearOrderedField K]

/-- The interval formula of `CheckCollision` stays within `[0.08, 0.2]`. -/
theorem moveInterval_bounds (k : Nat) :
    (0.08 : K) ≤ max 0.08 (0.2 - (k : K) * 0.005) ∧
    max 0.08 (0.2 - (k : K) * 0.005) ≤ (0.2 : K) := by
  refine ⟨le_max_left _ _, max_le (by norm_num) ?_⟩
  have hk : (0 : K) ≤ (k : K) := Nat.cast_nonneg k
  have : (0 : K) ≤ (k : K) * 0.005 := mul_nonneg hk (by norm_num)
  linarith

end Interval

variable {K : Type} [LinearOrderedField K] [FloorRing K]

/-- Witness of C2 on the playing state: the head is 5 away from the apple. -/
theorem CheckCollision_without_apple_witness :
    playingGame.snake.segments[0]? = some ⟨0, 0.5, 0⟩ ∧
    (1 : ℚ) ≤ Vector3Distance ratLibm ⟨0, 0.5, 0⟩ playingGame.applePosition ∧
    ∃ collision, CheckCollision ratLibm zeroRand playingGame = some (collision, playingGame) := by
  refine ⟨rfl, playingGame_far, ?_⟩
  obtain ⟨collision, h, _⟩ :=
    CheckCollision_without_apple ratLibm zeroRand playingGame ⟨0, 0.5, 0⟩ rfl playingGame_far
  exact ⟨collision, h⟩

/-- C3, as stated, fails: in `wallAppleGame` the head is outside the wall (`x = -20.5 < -20`)
and `CheckCollision` returns `false`, because the head is closer than `1.0` to the apple. -/
theorem CheckCollision_apple_hides_wall :
    wallAppleGame.snake.segments[0]? = some ⟨-41 / 2, 1 / 2, 0⟩ ∧
    (-41 / 2 : ℚ) < -wallAppleGame.arenaSize ∧
    ∃ g', CheckCollision ratLibm zeroRand wallAppleGame = some (false, g') := by
  refine ⟨rfl, ?_, _, CheckCollision_near ratLibm zeroRand wallAppleGame ⟨-41 / 2, 1 / 2, 0⟩ _
    rfl wallAppleGame_near ?_⟩
  · simp only [wallAppleGame, playingGame]
    norm_num
  · have h : wallAppleGame.arenaSize = 20 := rfl
    rw [h, truncToInt_40]
    decide

/-- C3, amended. The apple check runs first and decides alone when the head is closer than
`1.0` to the apple: `CheckCollision` then returns `false`. When the head is at distance at
least `1.0` from the apple, each of the other checks alone makes `CheckCollision` return
`true`: head outside the walls, head closer than `0.5` to a body segment, head within the
threshold of an obstacle. -/
theorem CheckCollision_checks_after_apple (m : Libm K) (rand : Nat → Nat) (g : Game K)
    (head : Vector3 K) (hhead : g.snake.segments[0]? = some head) :
    (1 ≤ Vector3Distance m head g.applePosition →
      ((head.x < -g.arenaSize ∨ head.x > g.arenaSize ∨
          head.z < -g.arenaSize ∨ head.z > g.arenaSize) ∨
        (∃ i, 1 ≤ i ∧ ∃ segment, g.snake.segments[i]? = some segment ∧
          Vector3Distance m head segment < 0.5) ∨
        (∃ obs ∈ g.obstacles, hitsObstacle m head obs = true)) →
      CheckCollision m rand g = some (true, g)) ∧
    (Vector3Distance m head g.applePosition < 1 → truncToInt (g.arenaSize * 2) ≠ 0 →
      ∃ g', CheckCollision m rand g = some (false, g')) := by
  cases hs : g.snake.segments with
  | nil => simp [hs] at hhead
  | cons h0 body =>
    have hh : h0 = head := by simpa [hs] using hhead
    subst hh
    refine ⟨fun hfar hany => ?_, fun hnear hmod =>
      ⟨_, CheckCollision_near m rand g h0 body hs hnear hmod⟩⟩
    rw [CheckCollision_far m rand g h0 body hs hfar]
    have hb : (decide (h0.x < -g.arenaSize ∨ h0.x > g.arenaSize ∨
          h0.z < -g.arenaSize ∨ h0.z > g.arenaSize) ||
        body.any (fun segment => Vector3Distance m h0 segment < 0.5) ||
        g.obstacles.any (hitsObstacle m h0)) = true := by
      rw [Bool.or_eq_true, Bool.or_eq_true, decide_eq_true_iff, List.any_eq_true,
        List.any_eq_true, or_assoc]
      simp only [decide_eq_true_iff]
      rw [exists_body_index h0 body (fun x => Vector3Distance m h0 x < 0.5)]
      exact hany
    rw [hb]

/-- Witness of C3 (amended): in `wallGame` the head is outside the wall and five units from
the apple, and `CheckCollision` returns `true`. -/
theorem CheckCollision_checks_after_apple_witness :
    wallGame.snake.segments[0]? = some ⟨-41 / 2, 1 / 2, 0⟩ ∧
    (1 : ℚ) ≤ Vector3Distance ratLibm ⟨-41 / 2, 1 / 2, 0⟩ wallGame.applePosition ∧
    CheckCollision ratLibm zeroRand wallGame = some (true, wallGame) :=
  ⟨rfl, wallGame_far,
    (CheckCollision_checks_after_apple ratLibm zeroRand wallGame ⟨-41 / 2, 1 / 2, 0⟩ rfl).1
      wallGame_far (Or.inl (Or.inl (by simp only [wallGame, wallAppleGame, playingGame]; norm_num)))⟩

theorem cons_of_head {α : Type} (l : List α) (a : α) (h : l[0]? = some a) :
    ∃ t, l = a :: t := by
  cases l with
  | nil => simp at h
  | cons b t => exact ⟨t, by simpa using h⟩

theorem sizeMinus3_eq (n : Nat) (h3 : 3 ≤ n) (h64 : n < 2 ^ 64) : sizeMinus3 n = n - 3 := by
  unfold sizeMinus3
  omega

/-- An `int` sum that stays within `[INT_MIN, INT_MAX]` is stored as it is. -/
theorem wrapInt32_eq (x : Int) (hlo : -2147483648 ≤ x) (hhi : x ≤ 2147483647) :
    wrapInt32 x = x := by
  unfold wrapInt32
  omega

/-- Ten points above `INT_MAX - 10` the stored score wraps to a negative value. -/
theorem wrapInt32_overflow : wrapInt32 (2147483640 + 10) = -2147483646 := by
  unfold wrapInt32
  omega

/-- C4. Eating an apple. For every game state with `n` segments, `3 ≤ n < 2^64` (the sizes a
snake vector has), and a score `s` with `INT_MIN ≤ s` and `s + 10 ≤ INT_MAX` (the 32-bit
addition does not overflow), whose head is closer than `1.0` to the apple, `CheckCollision`
returns `false`, adds exactly 10 to `score`, sets `shouldGrow`, keeps the segments and the
targets, and sets `moveInterval` to `max(0.08, 0.2 - 0.005 * (n - 3))`. That value lies in
`[0.08, 0.2]`, and it is non-increasing in `n`: a second state that eats with at least as
many segments gets an interval that is at most as long. -/
theorem CheckCollision_eats_apple (m : Libm K) (rand : Nat → Nat) (g : Game K)
    (head : Vector3 K) (hhead : g.snake.segments[0]? = some head)
    (hnear : Vector3Distance m head g.applePosition < 1)
    (hmod : truncToInt (g.arenaSize * 2) ≠ 0)
    (h3 : 3 ≤ g.snake.segments.length) (h64 : g.snake.segments.length < 2 ^ 64)
    (hlo : -2147483648 ≤ g.score) (hhi : g.score + 10 ≤ 2147483647) :
    ∃ g', CheckCollision m rand g = some (false, g') ∧
      g'.score = g.score + 10 ∧
      g'.snake.shouldGrow = true ∧
      g'.snake.segments = g.snake.segments ∧
      g'.snake.targetPositions = g.snake.targetPositions ∧
      g'.moveInterval = max 0.08 (0.2 - 0.005 * ((g.snake.segments.length : K) - 3)) ∧
      0.08 ≤ g'.moveInterval ∧ g'.moveInterval ≤ 0.2 ∧
      ∀ (rand2 : Nat → Nat) (g2 g2' : Game K) (head2 : Vector3 K),
        g2.snake.segments[0]? = some head2 →
        Vector3Distance m head2 g2.applePosition < 1 →
        g.snake.segments.length ≤ g2.snake.segments.length →
        g2.snake.segments.length < 2 ^ 64 →
        CheckCollision m rand2 g2 = some (false, g2') →
        g2'.moveInterval ≤ g'.moveInterval := by
  obtain ⟨body, hs⟩ := cons_of_head _ _ hhead
  have hcast : ∀ n : Nat, 3 ≤ n → n < 2 ^ 64 →
      ((sizeMinus3 n : Nat) : K) = (n : K) - 3 := by
    intro n hn3 hn64
    rw [sizeMinus3_eq n hn3 hn64, Nat.cast_sub hn3]
    norm_num
  refine ⟨_, CheckCollision_near m rand g head body hs hnear hmod,
    wrapInt32_eq _ (by omega) hhi, rfl, rfl, rfl, ?_,
    (moveInterval_bounds _).1, (moveInterval_bounds _).2, ?_⟩
  · show max (0.08 : K) (0.2 - (sizeMinus3 g.snake.segments.length : K) * 0.005) = _
    rw [hcast _ h3 h64, mul_comm]
  · intro rand2 g2 g2' head2 hhead2 hnear2 hle h264 hcc
    obtain ⟨body2, hs2⟩ := cons_of_head _ _ hhead2
    have hmod2 : truncToInt (g2.arenaSize * 2) ≠ 0 := by
      intro h0
      simp [CheckCollision, hs2, hnear2, SpawnApple, h0] at hcc
    rw [CheckCollision_near m rand2 g2 head2 body2 hs2 hnear2 hmod2] at hcc
    have hg2 : g2'.moveInterval =
        max 0.08 (0.2 - (sizeMinus3 g2.snake.segments.length : K) * 0.005) := by
      cases hcc
      rfl
    rw [hg2]
    show _ ≤ max (0.08 : K) (0.2 - (sizeMinus3 g.snake.segments.length : K) * 0.005)
    rw [hcast _ h3 h64, hcast _ (le_trans h3 hle) h264]
    have hc : (g.snake.segments.length : K) ≤ (g2.snake.segments.length : K) :=
      Nat.cast_le.mpr hle
    apply max_le_max le_rfl
    have : ((g.snake.segments.length : K) - 3) * 0.005
        ≤ ((g2.snake.segments.length : K) - 3) * 0.005 :=
      mul_le_mul_of_nonneg_right (by linarith) (by norm_num)
    linarith

/-- Witness of C4 on `eatingGame`: three segments, score 0, the apple on the head. -/
theorem CheckCollision_eats_apple_witness :
    eatingGame.snake.segments[0]? = some ⟨0, 0.5, 0⟩ ∧
    Vector3Distance ratLibm ⟨0, 0.5, 0⟩ eatingGame.applePosition < (1 : ℚ) ∧
    -2147483648 ≤ eatingGame.score ∧ eatingGame.score + 10 ≤ 2147483647 ∧
    ∃ g', CheckCollision ratLibm zeroRand eatingGame = some (false, g') ∧
      g'.score = 10 ∧ g'.moveInterval = 0.2 := by
  have hscore0 : eatingGame.score = 0 := rfl
  refine ⟨rfl, eatingGame_near, by rw [hscore0]; decide, by rw [hscore0]; decide, ?_⟩
  have hmod : truncToInt (eatingGame.arenaSize * 2) ≠ 0 := by
    have h : eatingGame.arenaSize = 20 := rfl
    rw [h, truncToInt_40]
    decide
  obtain ⟨g', h, hscore, _, _, _, hint, _⟩ :=
    CheckCollision_eats_apple ratLibm zeroRand eatingGame ⟨0, 0.5, 0⟩ rfl eatingGame_near hmod
      (by decide) (by decide) (by rw [hscore0]; decide) (by rw [hscore0]; decide)
  refine ⟨g', h, ?_, ?_⟩
  · rw [hscore]; rfl
  · rw [hint]
    have : eatingGame.snake.segments.length = 3 := rfl
    rw [this]
    norm_num

end Game

/-! ## Properties of `Game::SpawnApple` -/

namespace Game

variable {K : Type} [LinearOrderedField K] [FloorRing K]

/-- Loop invariants of the `while` loop of `SpawnApple`: a property kept by every iteration
that the loop condition allows holds when the loop ends. -/
theorem appleLoop_invariant (m : Libm K) (rand : Nat → Nat) (g : Game K)
    (P : AppleSearch K → Prop)
    (hstep : ∀ st, P st → st.validPosition = false → st.attempts < 50 →
      P (appleAttempt m rand g st))
    (fuel : Nat) (st : AppleSearch K) (h : P st) : P (appleLoop m rand g fuel st) := by
  induction fuel generalizing st with
  | zero => exact h
  | succ fuel ih =>
    unfold appleLoop
    split
    · rename_i hc
      simp only [Bool.and_eq_true, Bool.not_eq_true', decide_eq_true_eq] at hc
      exact ih _ (hstep st h hc.1 hc.2)
    · exact h

theorem appleAttempt_attempts (m : Libm K) (rand : Nat → Nat) (g : Game K)
    (st : AppleSearch K) : (appleAttempt m rand g st).attempts = st.attempts + 1 := by
  unfold appleAttempt
  split
  · rfl
  · split <;> rfl

/-- The fuel of the loop is enough: when it ends, the candidate is valid or 50 attempts were
made. -/
theorem appleLoop_exit (m : Libm K) (rand : Nat → Nat) (g : Game K) (fuel : Nat)
    (st : AppleSearch K) (h : 50 ≤ st.attempts + fuel) :
    (appleLoop m rand g fuel st).validPosition = true ∨
      50 ≤ (appleLoop m rand g fuel st).attempts := by
  induction fuel generalizing st with
  | zero => exact Or.inr (by simpa [appleLoop] using h)
  | succ fuel ih =>
    unfold appleLoop
    split
    · exact ih _ (by rw [appleAttempt_attempts]; omega)
    · rename_i hc
      simp only [Bool.and_eq_true, Bool.not_eq_true', decide_eq_true_eq, not_and, not_lt] at hc
      cases hv : st.validPosition with
      | true => exact Or.inl rfl
      | false => exact Or.inr (hc hv)

/-- One iteration either accepts the candidate it checked (both scans failed to find a
neighbour) or replaces it by a new draw that it does not check. -/
theorem appleAttempt_cases (m : Libm K) (rand : Nat → Nat) (g : Game K)
    (st : AppleSearch K) :
    ((appleAttempt m rand g st).validPosition = true ∧
      appleNearSnake m g st.x st.z = false ∧ appleNearObstacle m g st.x st.z = false ∧
      (appleAttempt m rand g st).x = st.x ∧ (appleAttempt m rand g st).z = st.z ∧
      (appleAttempt m rand g st).randPos = st.randPos) ∨
    ((appleAttempt m rand g st).validPosition = false ∧
      (appleNearSnake m g st.x st.z = true ∨ appleNearObstacle m g st.x st.z = true) ∧
      (appleAttempt m rand g st).x =
        randCoord rand st.randPos (truncToInt (g.arenaSize * 2)) g.arenaSize ∧
      (appleAttempt m rand g st).z =
        randCoord rand (st.randPos + 1) (truncToInt (g.arenaSize * 2)) g.arenaSize ∧
      (appleAttempt m rand g st).randPos = st.randPos + 2) := by
  unfold appleAttempt
  cases hs : appleNearSnake m g st.x st.z with
  | true => exact Or.inr ⟨by simp, Or.inl rfl, by simp, by simp, by simp⟩
  | false =>
    cases ho : appleNearObstacle m g st.x st.z with
    | true => exact Or.inr ⟨by simp, Or.inr rfl, by simp, by simp, by simp⟩
    | false => exact Or.inl ⟨by simp, rfl, rfl, by simp, by simp, by simp⟩

/-- An invariant of the loop that holds for the first candidate holds for the result of the
search. -/
theorem appleSearch_invariant (m : Libm K) (rand : Nat → Nat) (g : Game K)
    (P : AppleSearch K → Prop)
    (hstep : ∀ st, P st → st.validPosition = false → st.attempts < 50 →
      P (appleAttempt m rand g st))
    (hinit : P
      { x := randCoord rand g.randPos (truncToInt (g.arenaSize * 2)) g.arenaSize
        z := randCoord rand (g.randPos + 1) (truncToInt (g.arenaSize * 2)) g.arenaSize
        validPosition := false
        attempts := 0
        randPos := g.randPos + 2 }) :
    P (appleSearch m rand g) :=
  appleLoop_invariant m rand g P hstep 50 _ hinit

theorem appleSearch_exit (m : Libm K) (rand : Nat → Nat) (g : Game K) :
    (appleSearch m rand g).validPosition = true ∨ 50 ≤ (appleSearch m rand g).attempts :=
  appleLoop_exit m rand g 50 _ (by simp)

/-- The state of the search of `SpawnApple` when its loop ends. Either the candidate passed
both scans, or 50 attempts failed and the candidate is the 51st draw (the `rand()` values
number 100 and 101 after the start), which no scan has seen. -/
theorem appleSearch_spec (m : Libm K) (rand : Nat → Nat) (g : Game K) :
    (appleSearch m rand g).attempts ≤ 50 ∧
    ((appleSearch m rand g).validPosition = true →
      appleNearSnake m g (appleSearch m rand g).x (appleSearch m rand g).z = false ∧
      appleNearObstacle m g (appleSearch m rand g).x (appleSearch m rand g).z = false) ∧
    ((appleSearch m rand g).validPosition = false →
      (appleSearch m rand g).attempts = 50 ∧
      (appleSearch m rand g).x =
        randCoord rand (g.randPos + 100) (truncToInt (g.arenaSize * 2)) g.arenaSize ∧
      (appleSearch m rand g).z =
        randCoord rand (g.randPos + 101) (truncToInt (g.arenaSize * 2)) g.arenaSize ∧
      (appleSearch m rand g).randPos = g.randPos + 102) := by
  have hinv := appleSearch_invariant m rand g
    (fun st => st.attempts ≤ 50 ∧
      (st.validPosition = true →
        appleNearSnake m g st.x st.z = false ∧ appleNearObstacle m g st.x st.z = false) ∧
      (st.validPosition = false →
        st.randPos = g.randPos + 2 * st.attempts + 2 ∧
        st.x = randCoord rand (g.randPos + 2 * st.attempts)
          (truncToInt (g.arenaSize * 2)) g.arenaSize ∧
        st.z = randCoord rand (g.randPos + 2 * st.attempts + 1)
          (truncToInt (g.arenaSize * 2)) g.arenaSize))
    (by
      intro st ⟨_, _, h3⟩ hv ha
      obtain ⟨hr, _, _⟩ := h3 hv
      rw [appleAttempt_attempts]
      refine ⟨by omega, ?_, ?_⟩
      · intro hv'
        rcases appleAttempt_cases m rand g st with ⟨_, hs, ho, hx, hz, _⟩ | ⟨hf, _⟩
        · rw [hx, hz]; exact ⟨hs, ho⟩
        · rw [hf] at hv'; cases hv'
      · intro hv'
        rcases appleAttempt_cases m rand g st with ⟨ht, _⟩ | ⟨_, _, hx, hz, hp⟩
        · rw [ht] at hv'; cases hv'
        · rw [hx, hz, hp, hr]
          refine ⟨by ring, ?_, ?_⟩
          · congr 1
          · congr 1)
    ⟨by simp, by simp, by simp⟩
  have hexit := appleSearch_exit m rand g
  obtain ⟨h1, h2, h3⟩ := hinv
  refine ⟨h1, h2, fun hv => ?_⟩
  have h50 : (appleSearch m rand g).attempts = 50 := by
    rcases hexit with ht | hge
    · rw [ht] at hv; cases hv
    · omega
  obtain ⟨hp, hx, hz⟩ := h3 hv
  rw [h50] at hp hx hz
  exact ⟨h50, hx, hz, hp⟩

/-- A coordinate drawn in an arena of size 20 is an integer between `-20` and `19`. -/
theorem randCoord_arena20 (rand : Nat → Nat) (pos : Nat) :
    ∃ i : ℤ, randCoord rand pos (truncToInt ((20 : K) * 2)) (20 : K) = (i : K) ∧
      -20 ≤ i ∧ i ≤ 19 := by
  refine ⟨((rand pos : Nat) : ℤ) % 40 - 20, ?_, by omega, by omega⟩
  rw [truncToInt_40]
  unfold randCoord
  push_cast
  rfl

/-- An attempt on a candidate that is too close draws the next candidate. -/
theorem appleAttempt_trial_fail (m : Libm K) (rand : Nat → Nat) (g : Game K) (k : Nat)
    (h : TooClose m g (appleCandidate rand g k)) :
    appleAttempt m rand g (appleTrial rand g k) = appleTrial rand g (k + 1) := by
  have hnext : appleTrial rand g (k + 1) =
      { x := randCoord rand (appleTrial rand g k).randPos
          (truncToInt (g.arenaSize * 2)) g.arenaSize
        z := randCoord rand ((appleTrial rand g k).randPos + 1)
          (truncToInt (g.arenaSize * 2)) g.arenaSize
        validPosition := false
        attempts := (appleTrial rand g k).attempts + 1
        randPos := (appleTrial rand g k).randPos + 2 } := by
    simp only [appleTrial, appleCandidate]
    have e1 : g.randPos + 2 * (k + 1) = g.randPos + 2 * k + 2 := by ring
    rw [e1]
  have hclose := (tooClose_iff m g (appleTrial rand g k).x (appleTrial rand g k).z).mpr h
  unfold appleAttempt
  rw [hnext]
  rcases hclose with hs | ho
  · simp only [hs, if_true]
  · cases hs : appleNearSnake m g (appleTrial rand g k).x (appleTrial rand g k).z
    · simp only [ho, if_true, Bool.false_eq_true, if_false]
    · simp only [if_true]

/-- An attempt on a candidate that is not too close accepts it. -/
theorem appleAttempt_trial_ok (m : Libm K) (rand : Nat → Nat) (g : Game K) (k : Nat)
    (h : ¬ TooClose m g (appleCandidate rand g k)) :
    appleAttempt m rand g (appleTrial rand g k) =
      { appleTrial rand g k with validPosition := true, attempts := k + 1 } := by
  have hclose := (tooClose_iff m g (appleTrial rand g k).x (appleTrial rand g k).z).not.mpr h
  rw [not_or] at hclose
  unfold appleAttempt
  simp only [hclose.1, hclose.2, if_false]
  rfl

/-- The loop does not run on an accepted candidate. -/
theorem appleLoop_valid (m : Libm K) (rand : Nat → Nat) (g : Game K) (fuel : Nat)
    (st : AppleSearch K) (h : st.validPosition = true) : appleLoop m rand g fuel st = st := by
  cases fuel with
  | zero => rfl
  | succ fuel => simp [appleLoop, h]

/-- The loop takes the first candidate that is not too close. -/
theorem appleLoop_first_ok (m : Libm K) (rand : Nat → Nat) (g : Game K) (n k j : Nat)
    (hn : k + n = 50) (hkj : k ≤ j) (hj : j < 50)
    (hfail : ∀ i, k ≤ i → i < j → TooClose m g (appleCandidate rand g i))
    (hok : ¬ TooClose m g (appleCandidate rand g j)) :
    appleLoop m rand g n (appleTrial rand g k) =
      { appleTrial rand g j with validPosition := true, attempts := j + 1 } := by
  induction n generalizing k with
  | zero => omega
  | succ n ih =>
    have hcond : (!(appleTrial rand g k).validPosition &&
        decide ((appleTrial rand g k).attempts < 50)) = true := by
      simp only [appleTrial, Bool.not_false, Bool.true_and, decide_eq_true_eq]
      omega
    unfold appleLoop
    rw [if_pos hcond]
    by_cases hk : k = j
    · subst hk
      rw [appleAttempt_trial_ok m rand g k hok]
      exact appleLoop_valid m rand g n _ rfl
    · rw [appleAttempt_trial_fail m rand g k (hfail k le_rfl (by omega))]
      exact ih (k + 1) (by omega) (by omega) (fun i hi1 hi2 => hfail i (by omega) hi2)

/-- When the first 50 candidates are all too close the loop ends on candidate 50. -/
theorem appleLoop_all_fail (m : Libm K) (rand : Nat → Nat) (g : Game K) (n k : Nat)
    (hn : k + n = 50)
    (hfail : ∀ i, k ≤ i → i < 50 → TooClose m g (appleCandidate rand g i)) :
    appleLoop m rand g n (appleTrial rand g k) = appleTrial rand g 50 := by
  induction n generalizing k with
  | zero =>
    have : k = 50 := by omega
    subst this
    rfl
  | succ n ih =>
    have hcond : (!(appleTrial rand g k).validPosition &&
        decide ((appleTrial rand g k).attempts < 50)) = true := by
      simp only [appleTrial, Bool.not_false, Bool.true_and, decide_eq_true_eq]
      omega
    unfold appleLoop
    rw [if_pos hcond, appleAttempt_trial_fail m rand g k (hfail k le_rfl (by omega))]
    exact ih (k + 1) (by omega) (fun i hi1 hi2 => hfail i (by omega) hi2)

/-- The search of `SpawnApple` is its loop run from the first candidate. -/
theorem appleSearch_eq (m : Libm K) (rand : Nat → Nat) (g : Game K) :
    appleSearch m rand g = appleLoop m rand g 50 (appleTrial rand g 0) := by
  unfold appleSearch appleTrial appleCandidate
  simp

/-- Among 50 candidates of which one is not too close there is a first such one. -/
theorem exists_first_candidate (P : Nat → Prop) (h : ∃ k, k < 50 ∧ ¬ P k) :
    ∃ k, k < 50 ∧ ¬ P k ∧ ∀ j, j < k → P j := by
  classical
  have hex : ∃ k, k < 50 ∧ ¬ P k := h
  refine ⟨Nat.find hex, (Nat.find_spec hex).1, (Nat.find_spec hex).2, ?_⟩
  intro j hj
  by_contra hP
  exact Nat.find_min hex hj ⟨lt_trans hj (Nat.find_spec hex).1, hP⟩

/-- C8, amended. For every `rand()` stream, snake and obstacle list, `SpawnApple` checks the
candidates in the order drawn and puts the apple on the first of the first 50 that is not
too close (at distance at least `1.0` from every snake segment and at least `radius + 1.0`
from every obstacle, radius `0.7` for a tree, `0.8` for a rock), after one attempt per
candidate checked. So when one of the 50 candidates is not too close, the apple is at these
distances from the snake and the obstacles. When all 50 are too close (all 50 attempts
fail), the apple is still placed: on candidate 50, drawn after the 50th failed check
(`rand()` values 100 and 101 of the call) and not checked. -/
theorem SpawnApple_validated_or_last_draw (m : Libm K) (rand : Nat → Nat) (g : Game K)
    (hmod : truncToInt (g.arenaSize * 2) ≠ 0) :
    ∃ g', SpawnApple m rand g = some g' ∧
      (∀ k, k < 50 →
        (∀ j, j < k → TooClose m g (appleCandidate rand g j)) →
        ¬ TooClose m g (appleCandidate rand g k) →
        g'.applePosition = appleCandidate rand g k ∧
        (appleSearch m rand g).validPosition = true ∧
        (appleSearch m rand g).attempts = k + 1 ∧
        g'.randPos = g.randPos + 2 * k + 2) ∧
      ((∀ k, k < 50 → TooClose m g (appleCandidate rand g k)) →
        g'.applePosition = appleCandidate rand g 50 ∧
        (appleSearch m rand g).validPosition = false ∧
        (appleSearch m rand g).attempts = 50 ∧
        g'.randPos = g.randPos + 102) ∧
      ((∃ k, k < 50 ∧ ¬ TooClose m g (appleCandidate rand g k)) →
        (∀ segment ∈ g.snake.segments, 1 ≤ Vector3Distance m g'.applePosition segment) ∧
        (∀ obs ∈ g.obstacles,
          (obs.type = ObstacleType.TREE →
            0.7 + 1 ≤ Vector3Distance m g'.applePosition obs.position) ∧
          (obs.type = ObstacleType.ROCK →
            0.8 + 1 ≤ Vector3Distance m g'.applePosition obs.position))) ∧
      (appleSearch m rand g).attempts ≤ 50 ∧
      ((appleSearch m rand g).validPosition = true →
        (∀ segment ∈ g.snake.segments, 1 ≤ Vector3Distance m g'.applePosition segment) ∧
        (∀ obs ∈ g.obstacles,
          (obs.type = ObstacleType.TREE →
            0.7 + 1 ≤ Vector3Distance m g'.applePosition obs.position) ∧
          (obs.type = ObstacleType.ROCK →
            0.8 + 1 ≤ Vector3Distance m g'.applePosition obs.position))) ∧
      ((appleSearch m rand g).validPosition = false →
        (appleSearch m rand g).attempts = 50 ∧
        g'.applePosition =
          ⟨randCoord rand (g.randPos + 100) (truncToInt (g.arenaSize * 2)) g.arenaSize,
           0.5,
           randCoord rand (g.randPos + 101) (truncToInt (g.arenaSize * 2)) g.arenaSize⟩) := by
  obtain ⟨h1, h2, h3⟩ := appleSearch_spec m rand g
  have hfirst : ∀ k, k < 50 →
      (∀ j, j < k → TooClose m g (appleCandidate rand g j)) →
      ¬ TooClose m g (appleCandidate rand g k) →
      appleSearch m rand g =
        { appleTrial rand g k with validPosition := true, attempts := k + 1 } := by
    intro k hk hfail hok
    rw [appleSearch_eq]
    exact appleLoop_first_ok m rand g 50 0 k (by omega) (Nat.zero_le k) hk
      (fun i _ hi => hfail i hi) hok
  have hfar : ∀ p : Vector3 K, ¬ TooClose m g p →
      (∀ segment ∈ g.snake.segments, 1 ≤ Vector3Distance m p segment) ∧
      (∀ obs ∈ g.obstacles,
        (obs.type = ObstacleType.TREE → 0.7 + 1 ≤ Vector3Distance m p obs.position) ∧
        (obs.type = ObstacleType.ROCK → 0.8 + 1 ≤ Vector3Distance m p obs.position)) := by
    intro p hp
    unfold TooClose at hp
    rw [not_or] at hp
    constructor
    · intro segment hmem
      by_contra hlt
      exact hp.1 ⟨segment, hmem, not_le.mp hlt⟩
    · intro obs hmem
      constructor
      · intro ht
        by_contra hlt
        exact hp.2 ⟨obs, hmem, Or.inl ⟨ht, not_le.mp hlt⟩⟩
      · intro ht
        by_contra hlt
        exact hp.2 ⟨obs, hmem, Or.inr ⟨ht, not_le.mp hlt⟩⟩
  have hplace : ∀ k, k < 50 →
      (∀ j, j < k → TooClose m g (appleCandidate rand g j)) →
      ¬ TooClose m g (appleCandidate rand g k) →
      (⟨(appleSearch m rand g).x, 0.5, (appleSearch m rand g).z⟩ : Vector3 K)
        = appleCandidate rand g k := by
    intro k hk hfail hok
    rw [hfirst k hk hfail hok]
    rfl
  refine ⟨_, SpawnApple_eq_some m rand g hmod, ?_, ?_, ?_, h1, fun hv => ?_, fun hv => ?_⟩
  · intro k hk hfail hok
    refine ⟨hplace k hk hfail hok, ?_, ?_, ?_⟩
    · rw [hfirst k hk hfail hok]
    · rw [hfirst k hk hfail hok]
    · show (appleSearch m rand g).randPos = _
      rw [hfirst k hk hfail hok]
      rfl
  · intro hall
    have hend : appleSearch m rand g = appleTrial rand g 50 := by
      rw [appleSearch_eq]
      exact appleLoop_all_fail m rand g 50 0 (by omega) (fun i _ hi => hall i hi)
    refine ⟨?_, ?_, ?_, ?_⟩
    · show (⟨(appleSearch m rand g).x, 0.5, (appleSearch m rand g).z⟩ : Vector3 K) = _
      rw [hend]
      rfl
    · rw [hend]; rfl
    · rw [hend]; rfl
    · show (appleSearch m rand g).randPos = _
      rw [hend]
      rfl
  · intro hex
    obtain ⟨k, hk, hok, hfail⟩ :=
      exists_first_candidate (fun k => TooClose m g (appleCandidate rand g k)) hex
    show (∀ segment ∈ g.snake.segments, 1 ≤ Vector3Distance m
        (⟨(appleSearch m rand g).x, 0.5, (appleSearch m rand g).z⟩ : Vector3 K) segment) ∧ _
    rw [hplace k hk hfail hok]
    exact hfar _ hok
  · obtain ⟨hs, ho⟩ := h2 hv
    apply hfar
    intro hclose
    rcases (tooClose_iff m g _ _).mpr hclose with h | h
    · rw [hs] at h; cases h
    · rw [ho] at h; cases h
  · obtain ⟨h50, hx, hz, _⟩ := h3 hv
    refine ⟨h50, ?_⟩
    show (⟨(appleSearch m rand g).x, 0.5, (appleSearch m rand g).z⟩ : Vector3 K) = _
    rw [hx, hz]

/-- A distance over `ratLibm` whose square is the square of a non-negative rational. -/
theorem ratLibm_distance (a b : Vector3 ℚ) (q : ℚ) (hq : 0 ≤ q)
    (h : (b.x - a.x) * (b.x - a.x) + (b.y - a.y) * (b.y - a.y) + (b.z - a.z) * (b.z - a.z)
      = q * q) :
    Vector3Distance ratLibm a b = q := by
  unfold Vector3Distance
  dsimp only
  rw [h]
  have hs := Rat.sqrt_eq q
  rw [abs_of_nonneg hq] at hs
  exact hs

theorem retryGame_candidate_zero : appleCandidate retryRand retryGame 0 = ⟨0, 0.5, 0⟩ := by
  have h : retryGame.arenaSize = 20 := rfl
  unfold appleCandidate
  rw [h, truncToInt_40]
  simp [randCoord, retryRand, retryGame, playingGame]

theorem retryGame_candidate_one : appleCandidate retryRand retryGame 1 = ⟨5, 0.5, 0⟩ := by
  have h : retryGame.arenaSize = 20 := rfl
  unfold appleCandidate
  rw [h, truncToInt_40]
  simp [randCoord, retryRand, retryGame, playingGame]
  norm_num

/-- The first candidate of `retryGame` is the position of the head. -/
theorem retryGame_first_tooClose :
    TooClose ratLibm retryGame (appleCandidate retryRand retryGame 0) := by
  rw [retryGame_candidate_zero]
  refine Or.inl ⟨⟨0, 0.5, 0⟩, by simp [retryGame, playingGame, startSnake, Snake.Reset,
    Snake.startSegments], ?_⟩
  rw [ratLibm_distance _ _ 0 le_rfl (by norm_num)]
  norm_num

/-- The second candidate of `retryGame` is 5, 6 and 7 away from the three segments and
4.5 away from the tree and from the rock. -/
theorem retryGame_second_free :
    ¬ TooClose ratLibm retryGame (appleCandidate retryRand retryGame 1) := by
  rw [retryGame_candidate_one]
  have d0 : Vector3Distance ratLibm ⟨5, 0.5, 0⟩ ⟨0, 0.5, 0⟩ = 5 :=
    ratLibm_distance _ _ 5 (by norm_num) (by norm_num)
  have d1 : Vector3Distance ratLibm ⟨5, 0.5, 0⟩ ⟨0 - 1, 0.5, 0⟩ = 6 :=
    ratLibm_distance _ _ 6 (by norm_num) (by norm_num)
  have d2 : Vector3Distance ratLibm ⟨5, 0.5, 0⟩ ⟨0 - 2, 0.5, 0⟩ = 7 :=
    ratLibm_distance _ _ 7 (by norm_num) (by norm_num)
  have dt : Vector3Distance ratLibm ⟨5, 0.5, 0⟩ ⟨9, 0, 2⟩ = 9 / 2 :=
    ratLibm_distance _ _ (9 / 2) (by norm_num) (by norm_num)
  have dr : Vector3Distance ratLibm ⟨5, 0.5, 0⟩ ⟨9, 0, -2⟩ = 9 / 2 :=
    ratLibm_distance _ _ (9 / 2) (by norm_num) (by norm_num)
  rintro (⟨segment, hmem, hlt⟩ | ⟨obs, hmem, h⟩)
  · simp only [retryGame, playingGame, startSnake, Snake.Reset, Snake.startSegments,
      List.mem_cons, List.mem_singleton, List.not_mem_nil, or_false] at hmem
    rcases hmem with rfl | rfl | rfl
    · rw [d0] at hlt; norm_num at hlt
    · rw [d1] at hlt; norm_num at hlt
    · rw [d2] at hlt; norm_num at hlt
  · simp only [retryGame, List.mem_cons, List.mem_singleton, List.not_mem_nil,
      or_false] at hmem
    rcases hmem with rfl | rfl
    · rcases h with ⟨_, hlt⟩ | ⟨ht, _⟩
      · rw [dt] at hlt; norm_num at hlt
      · cases ht
    · rcases h with ⟨ht, _⟩ | ⟨_, hlt⟩
      · cases ht
      · rw [dr] at hlt; norm_num at hlt

/-- Witness of C8 (amended) with a retry: in `retryGame` the first candidate is the head's
position and is rejected, the second is not too close and becomes the apple position after
two attempts. -/
theorem SpawnApple_validated_or_last_draw_witness :
    truncToInt (retryGame.arenaSize * 2) ≠ 0 ∧
    TooClose ratLibm retryGame (appleCandidate retryRand retryGame 0) ∧
    ¬ TooClose ratLibm retryGame (appleCandidate retryRand retryGame 1) ∧
    ∃ g', SpawnApple ratLibm retryRand retryGame = some g' ∧
      g'.applePosition = ⟨5, 0.5, 0⟩ ∧
      (appleSearch ratLibm retryRand retryGame).validPosition = true ∧
      (appleSearch ratLibm retryRand retryGame).attempts = 2 := by
  have hmod : truncToInt (retryGame.arenaSize * 2) ≠ 0 := by
    have h : retryGame.arenaSize = 20 := rfl
    rw [h, truncToInt_40]
    decide
  obtain ⟨g', h, hfirst, _⟩ :=
    SpawnApple_validated_or_last_draw ratLibm retryRand retryGame hmod
  obtain ⟨hpos, hvalid, hattempts, _⟩ := hfirst 1 (by decide)
    (fun j hj => by
      have hj0 : j = 0 := by omega
      rw [hj0]
      exact retryGame_first_tooClose)
    retryGame_second_free
  exact ⟨hmod, retryGame_first_tooClose, retryGame_second_free, g', h,
    by rw [hpos, retryGame_candidate_one], hvalid, hattempts⟩

/-- With the stream `zeroRand` every candidate of `cornerGame` is the corner cell. -/
theorem cornerGame_randCoord (pos : Nat) :
    randCoord zeroRand pos (truncToInt (cornerGame.arenaSize * 2)) cornerGame.arenaSize
      = -20 := by
  have h : cornerGame.arenaSize = 20 := rfl
  rw [h, truncToInt_40]
  simp [randCoord, zeroRand]

/-- The corner cell is closer than `1.0` to a segment of the snake of `cornerGame` (it is
the position of its head). -/
theorem cornerGame_nearSnake : appleNearSnake ratLibm cornerGame (-20) (-20) = true := by
  unfold appleNearSnake
  rw [List.any_eq_true]
  refine ⟨⟨-20, 1 / 2, -20⟩, by simp [cornerGame], ?_⟩
  have h : Vector3Distance ratLibm ⟨-20, 0.5, -20⟩ ⟨-20, 1 / 2, -20⟩ = 0 := by
    simp only [Vector3Distance]
    norm_num
    exact ratLibm_sqrtf_zero
  rw [h]
  decide

/-- C8, as stated, fails. In `cornerGame` with the stream `zeroRand` all 50 attempts fail,
and yet the apple is moved: from `(3, 0.5, 4)` onto the corner cell `(-20, 0.5, -20)`, where
the head of the snake is (distance `0`). -/
theorem SpawnApple_places_unvalidated :
    ∃ g', SpawnApple ratLibm zeroRand cornerGame = some g' ∧
      (appleSearch ratLibm zeroRand cornerGame).validPosition = false ∧
      (appleSearch ratLibm zeroRand cornerGame).attempts = 50 ∧
      g'.applePosition = ⟨-20, 0.5, -20⟩ ∧
      g'.applePosition ≠ cornerGame.applePosition ∧
      (⟨-20, 1 / 2, -20⟩ : Vector3 ℚ) ∈ cornerGame.snake.segments ∧
      Vector3Distance ratLibm g'.applePosition ⟨-20, 1 / 2, -20⟩ < 1 := by
  have hmod : truncToInt (cornerGame.arenaSize * 2) ≠ 0 := by
    have h : cornerGame.arenaSize = 20 := rfl
    rw [h, truncToInt_40]
    decide
  have hinv := appleSearch_invariant ratLibm zeroRand cornerGame
    (fun st => st.x = -20 ∧ st.z = -20 ∧ st.validPosition = false)
    (by
      intro st ⟨hx, hz, _⟩ _ _
      rcases appleAttempt_cases ratLibm zeroRand cornerGame st with
        ⟨_, hs, _⟩ | ⟨hv, _, hx', hz', _⟩
      · rw [hx, hz, cornerGame_nearSnake] at hs
        cases hs
      · rw [hx', hz', cornerGame_randCoord, cornerGame_randCoord]
        exact ⟨rfl, rfl, hv⟩)
    ⟨cornerGame_randCoord _, cornerGame_randCoord _, rfl⟩
  obtain ⟨hx, hz, hv⟩ := hinv
  obtain ⟨_, _, h3⟩ := appleSearch_spec ratLibm zeroRand cornerGame
  have hpos : (⟨(appleSearch ratLibm zeroRand cornerGame).x, 0.5,
      (appleSearch ratLibm zeroRand cornerGame).z⟩ : Vector3 ℚ) = ⟨-20, 0.5, -20⟩ := by
    rw [hx, hz]
  refine ⟨_, SpawnApple_eq_some ratLibm zeroRand cornerGame hmod, hv, (h3 hv).1, hpos, ?_,
    by simp [cornerGame], ?_⟩
  · show (⟨(appleSearch ratLibm zeroRand cornerGame).x, 0.5,
      (appleSearch ratLibm zeroRand cornerGame).z⟩ : Vector3 ℚ) ≠ _
    rw [hpos]
    simp only [cornerGame, playingGame]
    intro h
    have hx3 := congrArg Vector3.x h
    norm_num at hx3
  · show Vector3Distance ratLibm (⟨(appleSearch ratLibm zeroRand cornerGame).x, 0.5,
      (appleSearch ratLibm zeroRand cornerGame).z⟩ : Vector3 ℚ) _ < 1
    rw [hpos]
    have h : Vector3Distance ratLibm ⟨-20, 0.5, -20⟩ ⟨-20, 1 / 2, -20⟩ = 0 := by
      simp only [Vector3Distance]
      norm_num
      exact ratLibm_sqrtf_zero
    rw [h]
    decide

/-- C9. The apple lies on the grid inside the arena: with `arenaSize = 20`, for every
`rand()` stream (its values are natural numbers), `SpawnApple` returns and leaves an apple
position with `y = 0.5` and integer `x` and `z` between `-20` and `19`, at which the wall
check of `CheckCollision` is false. -/
theorem SpawnApple_on_grid_inside_arena (m : Libm K) (rand : Nat → Nat) (g : Game K)
    (harena : g.arenaSize = 20) :
    ∃ g', SpawnApple m rand g = some g' ∧
      g'.applePosition.y = 0.5 ∧
      (∃ i j : ℤ, g'.applePosition.x = (i : K) ∧ g'.applePosition.z = (j : K) ∧
        -20 ≤ i ∧ i ≤ 19 ∧ -20 ≤ j ∧ j ≤ 19) ∧
      ¬ (g'.applePosition.x < -g'.arenaSize ∨ g'.applePosition.x > g'.arenaSize ∨
        g'.applePosition.z < -g'.arenaSize ∨ g'.applePosition.z > g'.arenaSize) := by
  have hmod : truncToInt (g.arenaSize * 2) ≠ 0 := by
    rw [harena, truncToInt_40]
    decide
  have hinv := appleSearch_invariant m rand g
    (fun st => ∃ i j : ℤ, st.x = (i : K) ∧ st.z = (j : K) ∧
      -20 ≤ i ∧ i ≤ 19 ∧ -20 ≤ j ∧ j ≤ 19)
    (by
      intro st hP _ _
      rcases appleAttempt_cases m rand g st with ⟨_, _, _, hx, hz, _⟩ | ⟨_, _, hx, hz, _⟩
      · rw [hx, hz]; exact hP
      · rw [hx, hz, harena]
        obtain ⟨i, hi, hi1, hi2⟩ := randCoord_arena20 (K := K) rand st.randPos
        obtain ⟨j, hj, hj1, hj2⟩ := randCoord_arena20 (K := K) rand (st.randPos + 1)
        exact ⟨i, j, hi, hj, hi1, hi2, hj1, hj2⟩)
    (by
      rw [harena]
      obtain ⟨i, hi, hi1, hi2⟩ := randCoord_arena20 (K := K) rand g.randPos
      obtain ⟨j, hj, hj1, hj2⟩ := randCoord_arena20 (K := K) rand (g.randPos + 1)
      exact ⟨i, j, hi, hj, hi1, hi2, hj1, hj2⟩)
  obtain ⟨i, j, hi, hj, hi1, hi2, hj1, hj2⟩ := hinv
  refine ⟨_, SpawnApple_eq_some m rand g hmod, rfl, ⟨i, j, hi, hj, hi1, hi2, hj1, hj2⟩, ?_⟩
  show ¬ ((appleSearch m rand g).x < -g.arenaSize ∨ (appleSearch m rand g).x > g.arenaSize ∨
    (appleSearch m rand g).z < -g.arenaSize ∨ (appleSearch m rand g).z > g.arenaSize)
  rw [hi, hj, harena]
  have a1 : ((-20 : ℤ) : K) ≤ (i : K) := Int.cast_le.mpr hi1
  have a2 : (i : K) ≤ ((19 : ℤ) : K) := Int.cast_le.mpr hi2
  have b1 : ((-20 : ℤ) : K) ≤ (j : K) := Int.cast_le.mpr hj1
  have b2 : (j : K) ≤ ((19 : ℤ) : K) := Int.cast_le.mpr hj2
  push_cast at a1 a2 b1 b2
  intro h
  rcases h with h | h | h | h <;> linarith

/-- Witness of C9 on the playing state, whose arena has size 20. -/
theorem SpawnApple_on_grid_inside_arena_witness :
    playingGame.arenaSize = 20 ∧
    ∃ g', SpawnApple ratLibm zeroRand playingGame = some g' ∧ g'.applePosition.y = 0.5 := by
  obtain ⟨g', h, hy, _⟩ := SpawnApple_on_grid_inside_arena ratLibm zeroRand playingGame rfl
  exact ⟨rfl, g', h, hy⟩

end Game

/-! ## Properties of `Game::Update` -/

namespace Snake

theorem SetDirection_segments {K : Type} (s : Snake K) (dir : Direction) :
    (s.SetDirection dir).segments = s.segments := by
  unfold SetDirection
  split <;> rfl

variable {K : Type} [LinearOrderedField K]

/-- `Update` returns on a snake with a head and a head target, and keeps both lists
non-empty. -/
theorem Update_isSome (m : Libm K) (s : Snake K) (deltaTime : K)
    (hs : s.segments ≠ []) (ht : s.targetPositions ≠ []) :
    ∃ s', s.Update m deltaTime = some s' ∧ s'.segments ≠ [] ∧
      s'.targetPositions = s.targetPositions := by
  unfold Update
  cases hm : s.isMoving with
  | false => exact ⟨s, by simp, hs, rfl⟩
  | true =>
    cases hseg : s.segments with
    | nil => exact absurd hseg hs
    | cons head body =>
      cases htar : s.targetPositions with
      | nil => exact absurd htar ht
      | cons target targets =>
        simp only [Bool.not_true, Bool.false_eq_true, if_false]
        split <;> exact ⟨_, rfl, by simp, by simp [htar]⟩

/-- `Move` returns on a snake with a target, and keeps the segment list non-empty. -/
theorem Move_isSome (s : Snake K) (hs : s.segments ≠ []) (ht : s.targetPositions ≠ []) :
    ∃ s', s.Move = some s' ∧ s'.segments ≠ [] := by
  cases hm : s.isMoving with
  | true => exact ⟨s, by simp [Move, hm], hs⟩
  | false =>
    cases htar : s.targetPositions with
    | nil => exact absurd htar ht
    | cons t0 ts =>
      refine ⟨_, Move_eq_some s t0 ts hm htar, ?_⟩
      simp [hs]

end Snake

namespace Game

theorem handleArrows_lists {K : Type} (inp : Input K) (s : Snake K) :
    (handleArrows inp s).segments = s.segments ∧
    (handleArrows inp s).targetPositions = s.targetPositions := by
  unfold handleArrows
  split_ifs <;>
    first
    | exact ⟨Snake.SetDirection_segments _ _, Snake.SetDirection_targetPositions _ _⟩
    | exact ⟨rfl, rfl⟩

theorem handleWASD_lists {K : Type} (inp : Input K) (s : Snake K) :
    (handleWASD inp s).segments = s.segments ∧
    (handleWASD inp s).targetPositions = s.targetPositions := by
  unfold handleWASD
  split_ifs <;>
    first
    | exact ⟨Snake.SetDirection_segments _ _, Snake.SetDirection_targetPositions _ _⟩
    | exact ⟨rfl, rfl⟩

section Frame

variable {K : Type} [LinearOrderedField K]

/-- What `frameStart` leaves untouched, and how it advances the timer. -/
theorem frameStart_some (m : Libm K) (g g1 : Game K) (inp : Input K)
    (h : frameStart m g inp = some g1) :
    g1.gameOver = g.gameOver ∧ g1.moveTimer = g.moveTimer + inp.deltaTime ∧
    g1.moveInterval = g.moveInterval ∧ g1.arenaSize = g.arenaSize := by
  unfold frameStart at h
  dsimp only at h
  split at h
  · cases h
  · cases h
    exact ⟨rfl, rfl, rfl, rfl⟩

theorem frameStart_isSome (m : Libm K) (g : Game K) (inp : Input K)
    (hs : g.snake.segments ≠ []) (ht : g.snake.targetPositions ≠ []) :
    ∃ g1, frameStart m g inp = some g1 ∧ g1.snake.segments ≠ [] ∧
      g1.snake.targetPositions ≠ [] := by
  have hl := handleWASD_lists inp (handleArrows inp g.snake)
  have hl2 := handleArrows_lists inp g.snake
  obtain ⟨s', hs', hseg, htar⟩ :=
    Snake.Update_isSome m (handleWASD inp (handleArrows inp g.snake)) inp.deltaTime
      (by rw [hl.1, hl2.1]; exact hs) (by rw [hl.2, hl2.2]; exact ht)
  refine ⟨{ g with snake := s', moveTimer := g.moveTimer + inp.deltaTime },
    by unfold frameStart; dsimp only; rw [hs'], hseg, ?_⟩
  show s'.targetPositions ≠ []
  rw [htar, hl.2, hl2.2]
  exact ht

theorem moveTick_some (g g2 : Game K) (h : moveTick g = some g2) :
    g2.gameOver = g.gameOver ∧ g2.arenaSize = g.arenaSize := by
  unfold moveTick at h
  split at h
  · cases h
  · cases h
    exact ⟨rfl, rfl⟩

theorem moveTick_isSome (g : Game K)
    (hs : g.snake.segments ≠ []) (ht : g.snake.targetPositions ≠ []) :
    ∃ g2, moveTick g = some g2 ∧ g2.snake.segments ≠ [] := by
  obtain ⟨s', hs', hseg⟩ := Snake.Move_isSome g.snake hs ht
  exact ⟨{ g with snake := s', moveTimer := 0 }, by unfold moveTick; rw [hs'], hseg⟩

end Frame

variable {K : Type} [LinearOrderedField K] [FloorRing K]

/-- `CheckCollision` never writes `gameOver`, and a `true` verdict comes with an unchanged
state. -/
theorem CheckCollision_some (m : Libm K) (rand : Nat → Nat) (g g' : Game K)
    (collision : Bool) (h : CheckCollision m rand g = some (collision, g')) :
    g'.gameOver = g.gameOver ∧ (collision = true → g' = g) := by
  cases hseg : g.snake.segments with
  | nil => simp [CheckCollision, hseg] at h
  | cons head body =>
    by_cases hnear : Vector3Distance m head g.applePosition < 1
    · by_cases hmod : truncToInt (g.arenaSize * 2) = 0
      · simp [CheckCollision, hseg, hnear, SpawnApple, hmod] at h
      · rw [CheckCollision_near m rand g head body hseg hnear hmod] at h
        cases h
        exact ⟨rfl, fun hc => by cases hc⟩
    · rw [CheckCollision_far m rand g head body hseg (not_lt.mp hnear)] at h
      cases h
      exact ⟨rfl, fun _ => rfl⟩

theorem CheckCollision_isSome (m : Libm K) (rand : Nat → Nat) (g : Game K)
    (hs : g.snake.segments ≠ []) (hmod : truncToInt (g.arenaSize * 2) ≠ 0) :
    ∃ r, CheckCollision m rand g = some r := by
  cases hseg : g.snake.segments with
  | nil => exact absurd hseg hs
  | cons head body =>
    by_cases hnear : Vector3Distance m head g.applePosition < 1
    · exact ⟨_, CheckCollision_near m rand g head body hseg hnear hmod⟩
    · exact ⟨_, CheckCollision_far m rand g head body hseg (not_lt.mp hnear)⟩

/-- The body run when the timer fires sets `gameOver` exactly when the collision check
returns `true`. -/
theorem timerFired_some (m : Libm K) (rand : Nat → Nat) (g g' : Game K)
    (h : timerFired m rand g = some g') (hplay : g.gameOver = false) :
    g'.gameOver = true ↔
      ∃ g2, moveTick g = some g2 ∧ CheckCollision m rand g2 = some (true, g2) := by
  unfold timerFired at h
  cases hmt : moveTick g with
  | none => simp [hmt] at h
  | some g2 =>
    rw [hmt] at h
    dsimp only at h
    cases hcc : CheckCollision m rand g2 with
    | none => simp [hcc] at h
    | some r =>
      obtain ⟨collision, g3⟩ := r
      rw [hcc] at h
      dsimp only at h
      obtain ⟨hgo, hsame⟩ := CheckCollision_some m rand g2 g3 collision hcc
      cases collision with
      | true =>
        simp only [if_true] at h
        cases h
        have h32 : g3 = g2 := hsame rfl
        subst h32
        exact ⟨fun _ => ⟨g3, rfl, hcc⟩, fun _ => rfl⟩
      | false =>
        simp only [Bool.false_eq_true, if_false] at h
        cases h
        constructor
        · intro hgt
          rw [hgo, (moveTick_some g g2 hmt).1, hplay] at hgt
          cases hgt
        · rintro ⟨g2', hg2', hcc'⟩
          cases hg2'
          rw [hcc] at hcc'
          cases hcc'

/-- C1. `Game::Update` is a two-state machine (playing / game over). In a game-over state
without R pressed, `Update` returns the state unchanged (all fields). `gameOver` goes from
true to false only in a frame in which R is pressed. It goes from false to true exactly in
the frames in which the move timer fires (`moveTimer + deltaTime >= moveInterval`) and
`CheckCollision`, run after `Move`, returns `true`. In a playing state with a head, a head
target and a non-zero apple modulus `(int)(arenaSize * 2)`, `Update` returns. -/
theorem Update_two_state_machine (m : Libm K) (rand : Nat → Nat) (g : Game K)
    (inp : Input K) :
    (g.gameOver = true → inp.KEY_R = false → Update m rand g inp = some g) ∧
    (∀ g', Update m rand g inp = some g' →
      (g.gameOver = true → g'.gameOver = false → inp.KEY_R = true) ∧
      (g.gameOver = false →
        (g'.gameOver = true ↔
          (g.moveTimer + inp.deltaTime ≥ g.moveInterval ∧
            ∃ g1 g2, frameStart m g inp = some g1 ∧ moveTick g1 = some g2 ∧
              CheckCollision m rand g2 = some (true, g2))))) ∧
    (g.gameOver = false → g.snake.segments ≠ [] → g.snake.targetPositions ≠ [] →
      truncToInt (g.arenaSize * 2) ≠ 0 → ∃ g', Update m rand g inp = some g') := by
  refine ⟨fun hover hR => by simp [Update, hover, hR], fun g' hg' => ⟨?_, ?_⟩, ?_⟩
  · intro hover hplay'
    by_contra hR
    have hR' : inp.KEY_R = false := by simpa using hR
    have : Update m rand g inp = some g := by simp [Update, hover, hR']
    rw [this] at hg'
    cases hg'
    rw [hover] at hplay'
    cases hplay'
  · intro hplay
    unfold Update at hg'
    rw [hplay] at hg'
    simp only [Bool.false_eq_true, if_false] at hg'
    cases hfs : frameStart m g inp with
    | none => simp [hfs] at hg'
    | some g1 =>
      rw [hfs] at hg'
      dsimp only at hg'
      obtain ⟨hgo1, htimer, hinterval, _⟩ := frameStart_some m g g1 inp hfs
      by_cases hfire : g1.moveTimer ≥ g1.moveInterval
      · rw [if_pos hfire] at hg'
        cases htf : timerFired m rand g1 with
        | none => simp [htf] at hg'
        | some g2 =>
          rw [htf] at hg'
          dsimp only at hg'
          cases hg'
          have hiff := timerFired_some m rand g1 g2 htf (by rw [hgo1, hplay])
          show g2.gameOver = true ↔ _
          rw [hiff]
          constructor
          · rintro ⟨g3, h3, hcc⟩
            exact ⟨by rw [← htimer, ← hinterval]; exact hfire, g1, g3, rfl, h3, hcc⟩
          · rintro ⟨_, g1', g3, h1, h3, hcc⟩
            cases h1
            exact ⟨g3, h3, hcc⟩
      · rw [if_neg hfire] at hg'
        dsimp only at hg'
        cases hg'
        show g1.gameOver = true ↔ _
        rw [hgo1, hplay]
        constructor
        · intro h; cases h
        · rintro ⟨hf, _⟩
          rw [← htimer, ← hinterval] at hf
          exact absurd hf hfire
  · intro hplay hs ht hmod
    obtain ⟨g1, hfs, hs1, ht1⟩ := frameStart_isSome m g inp hs ht
    obtain ⟨_, _, _, harena⟩ := frameStart_some m g g1 inp hfs
    unfold Update
    rw [hplay, hfs]
    simp only [Bool.false_eq_true, if_false]
    by_cases hfire : g1.moveTimer ≥ g1.moveInterval
    · rw [if_pos hfire]
      obtain ⟨g2, hmt, hs2⟩ := moveTick_isSome g1 hs1 ht1
      obtain ⟨r, hcc⟩ := CheckCollision_isSome m rand g2 hs2
        (by rw [(moveTick_some g1 g2 hmt).2, harena]; exact hmod)
      obtain ⟨collision, g3⟩ := r
      have htf : ∃ g4, timerFired m rand g1 = some g4 := by
        unfold timerFired
        rw [hmt]
        dsimp only
        rw [hcc]
        dsimp only
        split <;> exact ⟨_, rfl⟩
      obtain ⟨g4, hg4⟩ := htf
      rw [hg4]
      exact ⟨_, rfl⟩
    · rw [if_neg hfire]
      exact ⟨_, rfl⟩

/-- A head outside the walls and not closer than `1.0` to the apple is a collision. -/
theorem CheckCollision_wall (m : Libm K) (rand : Nat → Nat) (g : Game K)
    (head : Vector3 K) (hhead : g.snake.segments[0]? = some head)
    (hfar : 1 ≤ Vector3Distance m head g.applePosition)
    (hwall : head.x < -g.arenaSize ∨ head.x > g.arenaSize ∨
      head.z < -g.arenaSize ∨ head.z > g.arenaSize) :
    CheckCollision m rand g = some (true, g) := by
  obtain ⟨body, hs⟩ := cons_of_head _ _ hhead
  rw [CheckCollision_far m rand g head body hs hfar]
  simp [hwall]

theorem crashGame_frameStart : frameStart ratLibm crashGame idleInput = some crashFrame := by
  simp [frameStart, handleWASD, handleArrows, idleInput, Snake.Update, crashGame, crashFrame]

theorem crashFrame_moveTick : moveTick crashFrame = some crashMoved := by
  have h := Snake.Move_eq_some crashFrame.snake ⟨21, 1 / 2, 0⟩
    [⟨20, 1 / 2, 0⟩, ⟨19, 1 / 2, 0⟩] rfl rfl
  unfold moveTick
  rw [h]
  simp only [crashMoved, crashFrame, crashGame, Snake.stepHead]
  norm_num

theorem crashMoved_collision :
    CheckCollision ratLibm zeroRand crashMoved = some (true, crashMoved) := by
  apply CheckCollision_wall ratLibm zeroRand crashMoved ⟨21, 1 / 2, 0⟩ rfl
  · have h : Vector3Distance ratLibm ⟨21, 1 / 2, 0⟩ crashMoved.applePosition = 5 := by
      simp only [Vector3Distance, crashMoved, crashFrame, crashGame]
      norm_num
      exact ratLibm_sqrtf_25
    rw [h]
    norm_num
  · right; left
    simp only [crashMoved, crashFrame, crashGame, playingGame]
    norm_num

/-- Witness of C1: in `crashGame` the timer fires, `CheckCollision` returns `true` and the
game ends; in the game-over state `overGame` an idle frame changes nothing. -/
theorem Update_two_state_machine_witness :
    crashGame.gameOver = false ∧
    (∃ g', Update ratLibm zeroRand crashGame idleInput = some g' ∧ g'.gameOver = true) ∧
    Update ratLibm zeroRand overGame idleInput = some overGame := by
  obtain ⟨_, hstep, htotal⟩ := Update_two_state_machine ratLibm zeroRand crashGame idleInput
  have hmod : truncToInt (crashGame.arenaSize * 2) ≠ 0 := by
    have h : crashGame.arenaSize = 20 := rfl
    rw [h, truncToInt_40]
    decide
  obtain ⟨g', hg'⟩ := htotal rfl (by simp [crashGame]) (by simp [crashGame]) hmod
  refine ⟨rfl, ⟨g', hg', ((hstep g' hg').2 rfl).mpr ⟨?_, crashFrame, crashMoved,
    crashGame_frameStart, crashFrame_moveTick, crashMoved_collision⟩⟩,
    (Update_two_state_machine ratLibm zeroRand overGame idleInput).1 rfl rfl⟩
  simp only [crashGame, playingGame, idleInput]
  norm_num

/-- C10. Restart. In every game-over state with R pressed (and a non-zero apple modulus
`(int)(arenaSize * 2)`, as with the constructor's arena size 20), `Update` yields a state
with `gameOver = false`, `score = 0`, `moveInterval = 0.2` and a snake of exactly three
segments whose positions and targets are `(0, 0.5, 0)`, `(-1, 0.5, 0)`, `(-2, 0.5, 0)`, with
`direction = nextDirection = RIGHT`, `shouldGrow = false` and `isMoving = false`; the
obstacle list is unchanged. -/
theorem Update_restart (m : Libm K) (rand : Nat → Nat) (g : Game K) (inp : Input K)
    (hover : g.gameOver = true) (hR : inp.KEY_R = true)
    (hmod : truncToInt (g.arenaSize * 2) ≠ 0) :
    ∃ g', Update m rand g inp = some g' ∧
      g'.gameOver = false ∧ g'.score = 0 ∧ g'.moveInterval = 0.2 ∧
      g'.snake.segments = [⟨0, 0.5, 0⟩, ⟨-1, 0.5, 0⟩, ⟨-2, 0.5, 0⟩] ∧
      g'.snake.targetPositions = [⟨0, 0.5, 0⟩, ⟨-1, 0.5, 0⟩, ⟨-2, 0.5, 0⟩] ∧
      g'.snake.direction = Direction.RIGHT ∧ g'.snake.nextDirection = Direction.RIGHT ∧
      g'.snake.shouldGrow = false ∧ g'.snake.isMoving = false ∧
      g'.obstacles = g.obstacles := by
  have hstart : Snake.startSegments (⟨0, 0.5, 0⟩ : Vector3 K)
      = [⟨0, 0.5, 0⟩, ⟨-1, 0.5, 0⟩, ⟨-2, 0.5, 0⟩] := by
    simp [Snake.startSegments]
  have hsp := SpawnApple_eq_some m rand { g with snake := g.snake.Reset ⟨0, 0.5, 0⟩ } hmod
  have hU : Update m rand g inp = some
      { g with
        snake := g.snake.Reset ⟨0, 0.5, 0⟩
        applePosition :=
          ⟨(appleSearch m rand { g with snake := g.snake.Reset ⟨0, 0.5, 0⟩ }).x, 0.5,
           (appleSearch m rand { g with snake := g.snake.Reset ⟨0, 0.5, 0⟩ }).z⟩
        randPos := (appleSearch m rand { g with snake := g.snake.Reset ⟨0, 0.5, 0⟩ }).randPos
        moveInterval := 0.2
        score := 0
        gameOver := false } := by
    unfold Update
    rw [if_pos hover, if_pos hR, hsp]
  exact ⟨_, hU, rfl, rfl, rfl, hstart, hstart, rfl, rfl, rfl, rfl, rfl⟩

/-- Witness of C10: restarting from `overGame`. -/
theorem Update_restart_witness :
    overGame.gameOver = true ∧ restartInput.KEY_R = true ∧
    ∃ g', Update ratLibm zeroRand overGame restartInput = some g' ∧
      g'.gameOver = false ∧ g'.score = 0 := by
  have hmod : truncToInt (overGame.arenaSize * 2) ≠ 0 := by
    have h : overGame.arenaSize = 20 := rfl
    rw [h, truncToInt_40]
    decide
  obtain ⟨g', h, hgo, hscore, _⟩ :=
    Update_restart ratLibm zeroRand overGame restartInput rfl rfl hmod
  exact ⟨rfl, rfl, g', h, hgo, hscore⟩

end Game

/-! ## Properties of `Game::GenerateObstacles` -/

section Distance

variable {K : Type} [LinearOrderedField K]

/-- `Vector3Distance` is symmetric, whatever `sqrtf` is. -/
theorem Vector3Distance_comm (m : Libm K) (a b : Vector3 K) :
    Vector3Distance m a b = Vector3Distance m b a := by
  unfold Vector3Distance
  dsimp only
  congr 1
  ring

end Distance

namespace Game

section Placement

variable {K : Type} [LinearOrderedField K]

/-- A position accepted by `IsPositionFree` is at distance at least `2 * radius` from every
obstacle of the list. -/
theorem IsPositionFree_true (m : Libm K) (g : Game K) (position : Vector3 K) (radius : K)
    (h : IsPositionFree m g position radius = true) :
    ∀ obs ∈ g.obstacles, radius * 2 ≤ Vector3Distance m position obs.position := by
  intro obs hmem
  by_contra hlt
  have hany : g.obstacles.any
      (fun obs => decide (Vector3Distance m position obs.position < radius * 2)) = true := by
    rw [List.any_eq_true]
    exact ⟨obs, hmem, by simpa using hlt⟩
  unfold IsPositionFree at h
  rw [if_pos hany] at h
  cases h

/-- The scale drawn by `GenerateObstacles` lies in `[0.8, 1.3]`. -/
theorem scale_bounds (r : Nat) :
    (0.8 : K) ≤ 0.8 + ((r % 50 : Nat) : K) / 100 ∧
    0.8 + ((r % 50 : Nat) : K) / 100 ≤ (1.3 : K) := by
  have h0 : (0 : K) ≤ ((r % 50 : Nat) : K) := Nat.cast_nonneg _
  have h1 : ((r % 50 : Nat) : K) ≤ ((49 : Nat) : K) := Nat.cast_le.mpr (by omega)
  push_cast at h1
  constructor
  · have : (0 : K) ≤ ((r % 50 : Nat) : K) / 100 := div_nonneg h0 (by norm_num)
    linarith
  · have : ((r % 50 : Nat) : K) / 100 ≤ 49 / 100 := by
      apply div_le_div_of_nonneg_right h1 (by norm_num)
    norm_num at this ⊢
    linarith

end Placement

variable {K : Type} [LinearOrderedField K] [FloorRing K]

/-- Loop invariants of the `while` loop of `GenerateObstacles`. -/
theorem obstacleLoop_invariant (m : Libm K) (rand : Nat → Nat) (g : Game K)
    (P : ObstacleSearch K → Prop)
    (hstep : ∀ st, P st → st.validPosition = false → st.attempts < 20 →
      P (obstacleAttempt m rand g st))
    (fuel : Nat) (st : ObstacleSearch K) (h : P st) : P (obstacleLoop m rand g fuel st) := by
  induction fuel generalizing st with
  | zero => exact h
  | succ fuel ih =>
    unfold obstacleLoop
    split
    · rename_i hc
      simp only [Bool.and_eq_true, Bool.not_eq_true', decide_eq_true_eq] at hc
      exact ih _ (hstep st h hc.1 hc.2)
    · exact h

theorem obstacleAttempt_attempts (m : Libm K) (rand : Nat → Nat) (g : Game K)
    (st : ObstacleSearch K) : (obstacleAttempt m rand g st).attempts = st.attempts + 1 := by
  unfold obstacleAttempt
  dsimp only
  split <;> rfl

/-- The fuel of the loop is enough: when it ends, a position was accepted or 20 attempts
were made. -/
theorem obstacleLoop_exit (m : Libm K) (rand : Nat → Nat) (g : Game K) (fuel : Nat)
    (st : ObstacleSearch K) (h : 20 ≤ st.attempts + fuel) :
    (obstacleLoop m rand g fuel st).validPosition = true ∨
      20 ≤ (obstacleLoop m rand g fuel st).attempts := by
  induction fuel generalizing st with
  | zero => exact Or.inr (by simpa [obstacleLoop] using h)
  | succ fuel ih =>
    unfold obstacleLoop
    split
    · exact ih _ (by rw [obstacleAttempt_attempts]; omega)
    · rename_i hc
      simp only [Bool.and_eq_true, Bool.not_eq_true', decide_eq_true_eq, not_and, not_lt] at hc
      cases hv : st.validPosition with
      | true => exact Or.inl rfl
      | false => exact Or.inr (hc hv)

/-- One iteration of the search keeps the type of the obstacle, and accepts a position only
after all the checks. -/
theorem obstacleAttempt_spec (m : Libm K) (rand : Nat → Nat) (g : Game K)
    (st : ObstacleSearch K) (hv : st.validPosition = false) :
    (obstacleAttempt m rand g st).obs.type = st.obs.type ∧
    ((obstacleAttempt m rand g st).validPosition = true →
      Accepted m g (obstacleAttempt m rand g st).obs) := by
  unfold obstacleAttempt
  dsimp only
  split
  · exact ⟨rfl, fun h => by rw [hv] at h; cases h⟩
  · rename_i hlen
    refine ⟨rfl, fun h => ?_⟩
    dsimp only at h ⊢
    rw [hv] at h
    have hfree : IsPositionFree m g
        ⟨randCoord rand st.randPos (truncToInt (g.arenaSize * 1.8)) (g.arenaSize * 0.9), 0,
          randCoord rand (st.randPos + 1) (truncToInt (g.arenaSize * 1.8)) (g.arenaSize * 0.9)⟩
        (if st.obs.type = ObstacleType.TREE then 1 else 0.8) = true := by
      by_contra hf
      rw [if_neg hf] at h
      cases h
    refine ⟨rfl, not_lt.mp hlen, (scale_bounds _).1, (scale_bounds _).2, ?_⟩
    intro other hmem
    have := IsPositionFree_true m g _ _ hfree other hmem
    rw [mul_comm]
    exact this

/-- The state of the search of one slot when its loop ends: at most 20 attempts; a slot
without an accepted position has used all 20. -/
theorem obstacleSearch_spec (m : Libm K) (rand : Nat → Nat) (g : Game K) :
    (obstacleSearch m rand g).attempts ≤ 20 ∧
    ((obstacleSearch m rand g).validPosition = true →
      Accepted m g (obstacleSearch m rand g).obs) ∧
    ((obstacleSearch m rand g).validPosition = false →
      (obstacleSearch m rand g).attempts = 20) := by
  have hinv : (fun st : ObstacleSearch K => st.attempts ≤ 20 ∧
      (st.validPosition = true → Accepted m g st.obs)) (obstacleSearch m rand g) :=
    obstacleLoop_invariant m rand g
      (fun st : ObstacleSearch K => st.attempts ≤ 20 ∧
        (st.validPosition = true → Accepted m g st.obs))
      (by
        intro st _ hv ha
        rw [obstacleAttempt_attempts]
        exact ⟨by omega, (obstacleAttempt_spec m rand g st hv).2⟩)
      20 _ ⟨by simp, by simp⟩
  have hexit : (obstacleSearch m rand g).validPosition = true ∨
      20 ≤ (obstacleSearch m rand g).attempts :=
    obstacleLoop_exit m rand g 20 _ (by simp)
  refine ⟨hinv.1, hinv.2, fun hv => ?_⟩
  rcases hexit with ht | hge
  · rw [ht] at hv; cases hv
  · exact le_antisymm hinv.1 hge

/-- One slot appends the accepted obstacle, or leaves the list as it is. -/
theorem placeObstacle_obstacles (m : Libm K) (rand : Nat → Nat) (g : Game K) :
    ((obstacleSearch m rand g).validPosition = true →
      (placeObstacle m rand g).obstacles = g.obstacles ++ [(obstacleSearch m rand g).obs]) ∧
    ((obstacleSearch m rand g).validPosition = false →
      (placeObstacle m rand g).obstacles = g.obstacles) := by
  unfold placeObstacle
  dsimp only
  constructor
  · intro h; rw [if_pos h]
  · intro h; rw [if_neg (by simp [h])]

/-- One slot keeps the list well placed and adds at most one obstacle. -/
theorem placeObstacle_wellPlaced (m : Libm K) (rand : Nat → Nat) (g : Game K)
    (h : WellPlaced m g.obstacles) :
    WellPlaced m (placeObstacle m rand g).obstacles ∧
    (placeObstacle m rand g).obstacles.length ≤ g.obstacles.length + 1 := by
  obtain ⟨hyes, hno⟩ := placeObstacle_obstacles m rand g
  cases hv : (obstacleSearch m rand g).validPosition with
  | false =>
    rw [hno hv]
    exact ⟨h, by omega⟩
  | true =>
    rw [hyes hv]
    obtain ⟨hy, hlen, hs1, hs2, hdist⟩ := (obstacleSearch_spec m rand g).2.1 hv
    refine ⟨⟨?_, ?_⟩, by simp⟩
    · intro obs hmem
      rcases List.mem_append.mp hmem with hold | hnew
      · exact h.1 obs hold
      · rw [List.mem_singleton.mp hnew]
        exact ⟨hy, hlen, hs1, hs2⟩
    · rw [List.pairwise_append]
      refine ⟨h.2, List.pairwise_singleton _ _, ?_⟩
      intro earlier hearlier later hlater
      rw [List.mem_singleton.mp hlater]
      exact hdist earlier hearlier

/-- The slots of `GenerateObstacles` keep the list well placed; `n` slots add at most `n`
obstacles. -/
theorem obstacleSlots_wellPlaced (m : Libm K) (rand : Nat → Nat) (n : Nat) (g : Game K)
    (h : WellPlaced m g.obstacles) :
    WellPlaced m (obstacleSlots m rand n g).obstacles ∧
    (obstacleSlots m rand n g).obstacles.length ≤ g.obstacles.length + n := by
  induction n generalizing g with
  | zero => exact ⟨h, by simp [obstacleSlots]⟩
  | succ n ih =>
    unfold obstacleSlots
    obtain ⟨hw, hl⟩ := placeObstacle_wellPlaced m rand g h
    obtain ⟨hw', hl'⟩ := ih (placeObstacle m rand g) hw
    exact ⟨hw', by omega⟩

/-- C7. Obstacle placement by rejection sampling. For every `rand()` stream, when the
modulus `(int)(arenaSize * 1.8)` is not zero, `GenerateObstacles` returns with at most
`maxObstacles` obstacles (15 after the constructor); every stored obstacle has `y = 0`, lies
at distance at least `4.0` from the centre, has a scale in `[0.8, 1.3]`, and is at distance
at least `2 * r` from every obstacle stored before it (`r = 1.0` for a tree, `0.8` for a
rock), so that any two stored obstacles are at least `1.6` apart. In every slot at most 20
candidate positions are tried; a slot whose 20 attempts all fail leaves the list unchanged,
and a slot with an accepted candidate appends it. -/
theorem GenerateObstacles_rejection_sampling (m : Libm K) (rand : Nat → Nat) (g : Game K)
    (hmod : truncToInt (g.arenaSize * 1.8) ≠ 0) :
    ∃ g', GenerateObstacles m rand g = some g' ∧
      g'.obstacles.length ≤ g.maxObstacles.toNat ∧
      (∀ obs ∈ g'.obstacles, obs.position.y = 0 ∧ 4 ≤ Vector3Length m obs.position ∧
        0.8 ≤ obs.scale ∧ obs.scale ≤ 1.3) ∧
      g'.obstacles.Pairwise (fun earlier later =>
        (later.type = ObstacleType.TREE →
          2 * 1 ≤ Vector3Distance m later.position earlier.position) ∧
        (later.type = ObstacleType.ROCK →
          2 * 0.8 ≤ Vector3Distance m later.position earlier.position)) ∧
      g'.obstacles.Pairwise (fun a b =>
        1.6 ≤ Vector3Distance m a.position b.position ∧
        1.6 ≤ Vector3Distance m b.position a.position) ∧
      ∀ slot : Game K,
        (obstacleSearch m rand slot).attempts ≤ 20 ∧
        ((obstacleSearch m rand slot).validPosition = false →
          (obstacleSearch m rand slot).attempts = 20 ∧
          (placeObstacle m rand slot).obstacles = slot.obstacles) ∧
        ((obstacleSearch m rand slot).validPosition = true →
          (placeObstacle m rand slot).obstacles
            = slot.obstacles ++ [(obstacleSearch m rand slot).obs]) := by
  have hstart : WellPlaced m ({ g with obstacles := [] } : Game K).obstacles :=
    ⟨fun _ h => absurd h (List.not_mem_nil _), List.Pairwise.nil⟩
  obtain ⟨⟨hall, hpair⟩, hlen⟩ :=
    obstacleSlots_wellPlaced m rand g.maxObstacles.toNat { g with obstacles := [] } hstart
  refine ⟨_, by unfold GenerateObstacles; rw [if_neg (fun h => hmod h.2)],
    by simpa using hlen, hall, ?_, ?_, ?_⟩
  · refine hpair.imp ?_
    intro earlier later h
    constructor
    · intro ht; rw [if_pos ht] at h; exact h
    · intro ht
      rw [if_neg (by rw [ht]; decide)] at h
      exact h
  · refine hpair.imp ?_
    intro a b h
    have hr : (1.6 : K) ≤ 2 * (if b.type = ObstacleType.TREE then (1 : K) else 0.8) := by
      split <;> norm_num
    have hba : (1.6 : K) ≤ Vector3Distance m b.position a.position := le_trans hr h
    exact ⟨by rw [Vector3Distance_comm]; exact hba, hba⟩
  · intro slot
    obtain ⟨h20, _, hfail⟩ := obstacleSearch_spec m rand slot
    obtain ⟨hyes, hno⟩ := placeObstacle_obstacles m rand slot
    exact ⟨h20, fun hv => ⟨hfail hv, hno hv⟩, hyes⟩

/-- Witness of C7 on a freshly constructed game: arena size 20, `maxObstacles = 15`. -/
theorem GenerateObstacles_rejection_sampling_witness :
    truncToInt (newGame.arenaSize * 1.8) ≠ 0 ∧
    ∃ g', GenerateObstacles ratLibm zeroRand newGame = some g' ∧ g'.obstacles.length ≤ 15 := by
  have hmod : truncToInt (newGame.arenaSize * 1.8) ≠ 0 := by
    have h : newGame.arenaSize = 20 := rfl
    rw [h]
    unfold truncToInt
    norm_num
  obtain ⟨g', h, hlen, _⟩ := GenerateObstacles_rejection_sampling ratLibm zeroRand newGame hmod
  exact ⟨hmod, g', h, hlen⟩

end Game

/-! ## Lengths of the two lists of a reachable snake -/

namespace Snake

variable {K : Type} [LinearOrderedField K]

theorem followLoop_length (m : Libm K) (baseSpeed deltaTime : K) (i : Nat)
    (ss ts : List (Vector3 K)) :
    (followLoop m baseSpeed deltaTime i ss ts).length = ss.length := by
  induction ss generalizing i ts with
  | nil => cases ts <;> rfl
  | cons s ss ih =>
    cases ts with
    | nil => rfl
    | cons t ts => simp [followLoop, ih]

/-- The follow loop replaces a segment that has a target by its `followStep`. -/
theorem followLoop_getElem? (m : Libm K) (baseSpeed deltaTime : K) (i : Nat)
    (ss ts : List (Vector3 K)) (j : Nat) (segment target : Vector3 K)
    (hs : ss[j]? = some segment) (ht : ts[j]? = some target) :
    (followLoop m baseSpeed deltaTime i ss ts)[j]?
      = some (followStep m baseSpeed deltaTime (i + j) segment target) := by
  induction ss generalizing i ts j with
  | nil => simp at hs
  | cons s ss ih =>
    cases ts with
    | nil => simp at ht
    | cons t ts =>
      cases j with
      | zero =>
        simp only [List.getElem?_cons_zero, Option.some.injEq] at hs ht
        subst hs ht
        simp [followLoop]
      | succ j =>
        simp only [List.getElem?_cons_succ] at hs ht
        simp only [followLoop, List.getElem?_cons_succ]
        rw [ih (i + 1) ts j hs ht]
        congr 2
        omega

theorem Update_length (m : Libm K) (s s' : Snake K) (deltaTime : K)
    (h : s.Update m deltaTime = some s') : s'.segments.length = s.segments.length := by
  unfold Update at h
  split at h
  · cases h; rfl
  · dsimp only at h
    split at h
    · rename_i head body target targets hseg htar
      split at h <;> cases h <;> simp [hseg, followLoop_length]
    · cases h

/-- `Move` never shortens the segment list and keeps the two lists equally long. -/
theorem Move_lengths (s s' : Snake K) (h : s.Move = some s') :
    s.segments.length ≤ s'.segments.length ∧
    (s.segments.length = s.targetPositions.length →
      s'.segments.length = s'.targetPositions.length) := by
  cases hm : s.isMoving with
  | true =>
    have : s.Move = some s := by simp [Move, hm]
    rw [this] at h
    cases h
    exact ⟨le_rfl, id⟩
  | false =>
    cases ht : s.targetPositions with
    | nil => simp [Move, hm, ht] at h
    | cons t0 ts =>
      rw [Move_eq_some s t0 ts hm ht] at h
      cases h
      constructor
      · simp
      · intro hlen
        simp only [List.length_append, List.length_cons, List.length_dropLast,
          Nat.add_sub_cancel]
        simp only [List.length_cons] at hlen
        omega

/-- In a reachable state the two lists are equally long, with at least three entries. -/
theorem Reachable.lengths (m : Libm K) (s : Snake K) (h : Reachable m s) :
    s.segments.length = s.targetPositions.length ∧ 3 ≤ s.segments.length := by
  induction h with
  | ofInitialize s startPos => simp [Initialize, startSegments]
  | ofReset s startPos => simp [Reset, startSegments]
  | setDirection dir _ ih =>
    rw [SetDirection_segments, SetDirection_targetPositions]
    exact ih
  | grow _ ih => exact ih
  | move _ hmove ih =>
    obtain ⟨hle, heq⟩ := Move_lengths _ _ hmove
    exact ⟨heq ih.1, le_trans ih.2 hle⟩
  | update deltaTime _ hupd ih =>
    obtain ⟨_, _, ht, _, _⟩ := Update_frame m _ _ deltaTime hupd
    rw [Update_length m _ _ deltaTime hupd, ht]
    exact ih

/-- C14. In every snake state reachable from `Initialize` or `Reset` by `Move`, `Update`,
`Grow` and `SetDirection` calls, the segment list and the target list are equally long with
at least 3 entries, and no call shortens them: `SetDirection`, `Grow` and `Update` keep the
length, `Move` keeps it or adds one. Hence `Move` and `Update` return (`back()`, `[0]` are
defined), the unsigned `size() - 3` is the true difference for every size a vector can have
(below `2^64`), and in `Update` every index `i ≥ 1` of the loop has a target, so the
branch `i >= targetPositions.size()` is not taken: segment `i` is replaced by its
`followStep`. -/
theorem reachable_lengths (m : Libm K) (s : Snake K) (h : Reachable m s) :
    s.segments.length = s.targetPositions.length ∧
    3 ≤ s.segments.length ∧
    (∀ dir, (s.SetDirection dir).segments.length = s.segments.length) ∧
    s.Grow.segments.length = s.segments.length ∧
    (∃ s', s.Move = some s' ∧ s.segments.length ≤ s'.segments.length ∧
      s'.segments.length ≤ s.segments.length + 1) ∧
    (∀ deltaTime, ∃ s', s.Update m deltaTime = some s' ∧
      s'.segments.length = s.segments.length) ∧
    (s.segments.length < 2 ^ 64 →
      ((sizeMinus3 s.segments.length : Nat) : Int) = (s.segments.length : Int) - 3) ∧
    (∃ head last, s.segments[0]? = some head ∧ s.targetPositions.getLast? = some last) ∧
    (∀ i, 1 ≤ i → i < s.segments.length → ¬ (i ≥ s.targetPositions.length)) ∧
    (∀ deltaTime s', s.isMoving = true → s.Update m deltaTime = some s' →
      ∀ i, 1 ≤ i → i < s.segments.length →
        ∃ segment target, s.segments[i]? = some segment ∧
          s.targetPositions[i]? = some target ∧
          s'.segments[i]? = some (followStep m s.baseSpeed deltaTime i segment target)) := by
  obtain ⟨hlen, h3⟩ := Reachable.lengths m s h
  have hs : s.segments ≠ [] := by
    intro h0; rw [h0] at h3; simp at h3
  have ht : s.targetPositions ≠ [] := by
    intro h0; rw [h0] at hlen; rw [hlen] at h3; simp at h3
  refine ⟨hlen, h3, fun dir => by rw [SetDirection_segments], rfl, ?_, ?_, ?_, ?_, ?_, ?_⟩
  · obtain ⟨s', hs', _⟩ := Move_isSome s hs ht
    refine ⟨s', hs', (Move_lengths s s' hs').1, ?_⟩
    cases hm : s.isMoving with
    | true =>
      have : s.Move = some s := by simp [Move, hm]
      rw [this] at hs'
      cases hs'
      omega
    | false =>
      cases htar : s.targetPositions with
      | nil => exact absurd htar ht
      | cons t0 ts =>
        rw [Move_eq_some s t0 ts hm htar] at hs'
        cases hs'
        simp only [List.length_append]
        split <;> simp
  · intro deltaTime
    obtain ⟨s', hs', _, _⟩ := Update_isSome m s deltaTime hs ht
    exact ⟨s', hs', Update_length m s s' deltaTime hs'⟩
  · intro h64
    rw [Game.sizeMinus3_eq _ h3 h64]
    omega
  · exact ⟨_, _, List.getElem?_eq_getElem (by omega), List.getLast?_eq_getLast _ ht⟩
  · intro i _ hi
    omega
  · intro deltaTime s' hmoving hupd i hi1 hi2
    obtain ⟨j, rfl⟩ : ∃ j, i = j + 1 := ⟨i - 1, by omega⟩
    have hjs : j + 1 < s.segments.length := hi2
    have hjt : j + 1 < s.targetPositions.length := by omega
    obtain ⟨segment, e1⟩ : ∃ x, s.segments[j + 1]? = some x :=
      ⟨_, List.getElem?_eq_getElem hjs⟩
    obtain ⟨target, e2⟩ : ∃ x, s.targetPositions[j + 1]? = some x :=
      ⟨_, List.getElem?_eq_getElem hjt⟩
    refine ⟨segment, target, e1, e2, ?_⟩
    obtain ⟨head, body, hseg⟩ : ∃ head body, s.segments = head :: body := by
      cases hseg : s.segments with
      | nil => exact absurd hseg hs
      | cons a l => exact ⟨a, l, rfl⟩
    obtain ⟨t0, targets, htar⟩ : ∃ t0 targets, s.targetPositions = t0 :: targets := by
      cases htar : s.targetPositions with
      | nil => exact absurd htar ht
      | cons a l => exact ⟨a, l, rfl⟩
    rw [hseg, List.getElem?_cons_succ] at e1
    rw [htar, List.getElem?_cons_succ] at e2
    have hfl := followLoop_getElem? m s.baseSpeed deltaTime 1 body targets j _ _ e1 e2
    rw [Nat.add_comm 1 j] at hfl
    unfold Update at hupd
    rw [hmoving, hseg, htar] at hupd
    simp only [Bool.not_true, Bool.false_eq_true, if_false] at hupd
    split at hupd <;> cases hupd <;> simpa using hfl

/-- Witness of C14: the start snake after `Grow`. -/
theorem reachable_lengths_witness :
    Reachable ratLibm grownSnake ∧
    grownSnake.segments.length = grownSnake.targetPositions.length ∧
    3 ≤ grownSnake.segments.length :=
  ⟨Reachable.grow (Reachable.ofReset Snake.ctor ⟨0, 0.5, 0⟩),
    (reachable_lengths ratLibm grownSnake
      (Reachable.grow (Reachable.ofReset Snake.ctor ⟨0, 0.5, 0⟩))).1,
    (reachable_lengths ratLibm grownSnake
      (Reachable.grow (Reachable.ofReset Snake.ctor ⟨0, 0.5, 0⟩))).2.1⟩

end Snake

/-! ## The targets of a reachable snake form a grid path -/

namespace Snake

variable {K : Type} [LinearOrderedField K]

theorem ReachableFrom.reachable (m : Libm K) (startPos : Vector3 K) (s : Snake K)
    (h : ReachableFrom m startPos s) : Reachable m s := by
  induction h with
  | ofInitialize s => exact Reachable.ofInitialize s startPos
  | ofReset s => exact Reachable.ofReset s startPos
  | setDirection dir _ ih => exact Reachable.setDirection dir ih
  | grow _ ih => exact Reachable.grow ih
  | move _ hmove ih => exact Reachable.move ih hmove
  | update deltaTime _ hupd ih => exact Reachable.update deltaTime ih hupd

theorem stepHead_y (d : Direction) (v : Vector3 K) : (stepHead d v).y = v.y := by
  cases d <;> rfl

theorem stepHead_neighbours (d : Direction) (v : Vector3 K) :
    GridNeighbours (stepHead d v) v := by
  cases d <;> simp [stepHead, GridNeighbours]

/-- Two steps bring the head target back only when the second step reverses the first. -/
theorem stepHead_stepHead_ne (d d' : Direction) (v : Vector3 K) (h : d' ≠ d.opposite) :
    stepHead d' (stepHead d v) ≠ v := by
  intro heq
  have hx := congrArg Vector3.x heq
  have hz := congrArg Vector3.z heq
  cases d <;> cases d' <;> simp [stepHead, Direction.opposite] at hx hz h <;> linarith

theorem stepHead_sub (d : Direction) (v : Vector3 K) :
    Vector3Subtract (stepHead d v) v = Direction.unitStep d := by
  cases d <;> simp [stepHead, Vector3Subtract, Direction.unitStep]

/-- The targets after a `Move` that is carried out, for a snake with at least three targets:
the stepped head target, then the old first and second targets, then old targets. -/
theorem Move_targets (s : Snake K) (t0 t1 t2 : Vector3 K) (rest : List (Vector3 K))
    (hm : s.isMoving = false) (ht : s.targetPositions = t0 :: t1 :: t2 :: rest)
    (R : Vector3 K → Vector3 K → Prop) :
    ∃ s' rest', s.Move = some s' ∧ s'.direction = s.nextDirection ∧
      s'.targetPositions = stepHead s.nextDirection t0 :: t0 :: t1 :: rest' ∧
      (∀ x ∈ rest', x ∈ t2 :: rest) ∧
      (List.Chain' R (t1 :: t2 :: rest) → List.Chain' R (t1 :: rest')) := by
  have hmove := Move_eq_some s t0 (t1 :: t2 :: rest) hm ht
  cases hg : s.shouldGrow with
  | true =>
    refine ⟨_, t2 :: rest, hmove, rfl, ?_, fun x hx => hx, fun h => h⟩
    simp only [hg, if_true, List.dropLast_cons₂, List.cons_append, List.getLast_cons_cons]
    rw [List.dropLast_append_getLast]
  | false =>
    refine ⟨_, (t2 :: rest).dropLast ++ [], hmove, rfl, ?_, ?_, ?_⟩
    · simp [hg]
    · intro x hx
      rw [List.append_nil] at hx
      exact List.mem_of_mem_dropLast hx
    · intro h
      rw [List.append_nil]
      have := h.init
      simpa using this

/-- In a state reachable from the start position `startPos` the targets are at least three,
all at the height of `startPos`, consecutive ones are grid neighbours, the first is one step
of `direction` ahead of the second, and the first differs from the third. -/
theorem ReachableFrom.path (m : Libm K) (startPos : Vector3 K) (s : Snake K)
    (h : ReachableFrom m startPos s) :
    ∃ t0 t1 t2 rest, s.targetPositions = t0 :: t1 :: t2 :: rest ∧
      (∀ t ∈ s.targetPositions, t.y = startPos.y) ∧
      List.Chain' GridNeighbours s.targetPositions ∧
      t0 = stepHead s.direction t1 ∧ t0 ≠ t2 := by
  induction h with
  | ofInitialize s =>
    refine ⟨_, _, _, [], rfl, ?_, ?_, ?_, ?_⟩
    · simp [Initialize, startSegments]
    · simp [Initialize, startSegments, GridNeighbours]
      norm_num
    · simp [Initialize, stepHead]
    · intro heq
      have hx := congrArg Vector3.x heq
      simp only at hx
      linarith
  | ofReset s =>
    refine ⟨_, _, _, [], rfl, ?_, ?_, ?_, ?_⟩
    · simp [Reset, startSegments]
    · simp [Reset, startSegments, GridNeighbours]
      norm_num
    · simp [Reset, stepHead]
    · intro heq
      have hx := congrArg Vector3.x heq
      simp only at hx
      linarith
  | setDirection dir _ ih =>
    rw [SetDirection_targetPositions, SetDirection_direction]
    exact ih
  | grow _ ih => exact ih
  | move hreach hmove ih =>
    rename_i s s'
    obtain ⟨t0, t1, t2, rest, ht, hy, hchain, hstep, hne⟩ := ih
    cases hm : s.isMoving with
    | true =>
      have : s.Move = some s := by simp [Move, hm]
      rw [this] at hmove
      cases hmove
      exact ⟨t0, t1, t2, rest, ht, hy, hchain, hstep, hne⟩
    | false =>
      obtain ⟨s'', rest', hs'', hdir, htar, hmem, hch⟩ :=
        Move_targets s t0 t1 t2 rest hm ht GridNeighbours
      rw [hs''] at hmove
      cases hmove
      have hinv := (Reachable.invariant m s (ReachableFrom.reachable m startPos s hreach)).1
      rw [ht] at hy hchain
      have hc1 : GridNeighbours t0 t1 := (List.chain'_cons.mp hchain).1
      have hc2 : List.Chain' GridNeighbours (t1 :: t2 :: rest) := (List.chain'_cons.mp hchain).2
      refine ⟨_, _, _, rest', htar, ?_, ?_, ?_, ?_⟩
      · intro t hmem'
        rw [htar] at hmem'
        rcases List.mem_cons.mp hmem' with h0 | hmem'
        · rw [h0, stepHead_y]
          exact hy t0 (by simp)
        · rcases List.mem_cons.mp hmem' with h0 | hmem'
          · rw [h0]; exact hy t0 (by simp)
          · rcases List.mem_cons.mp hmem' with h0 | hmem'
            · rw [h0]; exact hy t1 (by simp)
            · exact hy t (by
                have := hmem t hmem'
                simp only [List.mem_cons] at this ⊢
                tauto)
      · rw [htar]
        exact List.Chain'.cons (stepHead_neighbours _ _) (List.Chain'.cons hc1 (hch hc2))
      · rw [hdir]
      · rw [hstep]
        exact stepHead_stepHead_ne _ _ _ hinv
  | update deltaTime _ hupd ih =>
    obtain ⟨hd, _, ht, _, _⟩ := Update_frame m _ _ deltaTime hupd
    rw [ht, hd]
    exact ih

/-- C15. The logical body of the snake is a connected grid path. In every state reachable
from `Initialize` or `Reset` at `startPos` by `Move`, `Update`, `Grow` and `SetDirection`
calls, all targets have the `y` of `startPos`, every two consecutive targets differ by
exactly one unit along exactly one of the `x` and `z` axes, `target[0] - target[1]` is the
unit step of the current direction, and `target[0]` differs from `target[2]`; `Move`
returns, and after it the head target again differs from `target[2]`, the target of the
segment behind the neck. -/
theorem targets_grid_path (m : Libm K) (startPos : Vector3 K) (s : Snake K)
    (h : ReachableFrom m startPos s) :
    (∀ t ∈ s.targetPositions, t.y = startPos.y) ∧
    List.Chain' (fun a b : Vector3 K =>
      ((a.x - b.x = 1 ∨ a.x - b.x = -1) ∧ a.z = b.z) ∨
      (a.x = b.x ∧ (a.z - b.z = 1 ∨ a.z - b.z = -1))) s.targetPositions ∧
    (∃ t0 t1 t2, s.targetPositions[0]? = some t0 ∧ s.targetPositions[1]? = some t1 ∧
      s.targetPositions[2]? = some t2 ∧
      Vector3Subtract t0 t1 = Direction.unitStep s.direction ∧ t0 ≠ t2) ∧
    (∃ s' t0' t2', s.Move = some s' ∧ s'.targetPositions[0]? = some t0' ∧
      s'.targetPositions[2]? = some t2' ∧ t0' ≠ t2') := by
  obtain ⟨t0, t1, t2, rest, ht, hy, hchain, hstep, hne⟩ := ReachableFrom.path m startPos s h
  refine ⟨hy, hchain.imp (fun {_ _} hab => hab.2), ⟨t0, t1, t2, by simp [ht], by simp [ht],
    by simp [ht], by rw [hstep]; exact stepHead_sub _ _, hne⟩, ?_⟩
  have hr := ReachableFrom.reachable m startPos s h
  obtain ⟨hlen, h3⟩ := Reachable.lengths m s hr
  have hs : s.segments ≠ [] := by
    intro h0; rw [h0] at h3; simp at h3
  obtain ⟨s', hs', _⟩ := Move_isSome s hs (by rw [ht]; simp)
  obtain ⟨a0, a1, a2, arest, hat, _, _, _, hane⟩ :=
    ReachableFrom.path m startPos s' (ReachableFrom.move h hs')
  exact ⟨s', a0, a2, hs', by simp [hat], by simp [hat], hane⟩

/-- Witness of C15: the start snake, reached by `Reset` at the arena centre. -/
theorem targets_grid_path_witness :
    ReachableFrom ratLibm ⟨0, 0.5, 0⟩ startSnake ∧
    ∀ t ∈ startSnake.targetPositions, t.y = (0.5 : ℚ) :=
  ⟨ReachableFrom.ofReset Snake.ctor,
    (targets_grid_path ratLibm ⟨0, 0.5, 0⟩ startSnake (ReachableFrom.ofReset Snake.ctor)).1⟩

end Snake

/-! ## Properties of `CameraController::Update` -/

namespace CameraController

variable {K : Type} [LinearOrderedField K]

/-- `Update` with a null snake pointer or an empty segment list returns at once. -/
theorem Update_nothing (m : Libm K) (c : CameraController K) (snake : Snake K)
    (h : c.hasSnake = false ∨ snake.segments = []) : c.Update m snake = c := by
  unfold Update
  rcases h with h | h
  · simp [h]
  · rw [h]
    split <;> rfl

/-- The state written by `Update` when the snake has a head. -/
theorem Update_cons (m : Libm K) (c : CameraController K) (snake : Snake K)
    (head : Vector3 K) (body : List (Vector3 K))
    (hc : c.hasSnake = true) (hs : snake.segments = head :: body) :
    (c.Update m snake).camera.target = head ∧
    (c.Update m snake).cameraDistance =
      c.cameraDistance * 0.95 +
        min (c.minDistance + c.distancePerSegment * ((snake.segments.length : K) - 3))
          c.maxDistance * 0.05 ∧
    (c.Update m snake).targetPosition =
      ⟨head.x + (c.Update m snake).cameraDistance * m.cosf (c.cameraAngle * m.DEG2RAD),
       (c.Update m snake).cameraDistance * 0.6,
       head.z + (c.Update m snake).cameraDistance * m.sinf (c.cameraAngle * m.DEG2RAD)⟩ ∧
    (c.Update m snake).camera.position =
      ⟨c.camera.position.x * 0.95 + (c.Update m snake).targetPosition.x * 0.05,
       c.camera.position.y * 0.95 + (c.Update m snake).targetPosition.y * 0.05,
       c.camera.position.z * 0.95 + (c.Update m snake).targetPosition.z * 0.05⟩ ∧
    (c.Update m snake).minDistance = c.minDistance ∧
    (c.Update m snake).maxDistance = c.maxDistance ∧
    (c.Update m snake).distancePerSegment = c.distancePerSegment := by
  unfold Update
  rw [hc, hs]
  simp [Snake.GetLength, hs]

/-- In a reachable camera controller the three constants have the constructor's values and
the camera distance lies between the minimum and the maximum. -/
theorem Reachable.bounds (m : Libm K) (c : CameraController K) (h : Reachable m c) :
    c.minDistance = 18 ∧ c.maxDistance = 30 ∧ c.distancePerSegment = 0.4 ∧
    18 ≤ c.cameraDistance ∧ c.cameraDistance ≤ 30 := by
  induction h with
  | ofCtor camera targetPosition =>
    refine ⟨rfl, rfl, rfl, ?_, ?_⟩ <;> simp only [ctor] <;> norm_num
  | ofInitialize _ ih => exact ih
  | update snake _ hsnake ih =>
    rename_i c _
    obtain ⟨hmin, hmax, hper, h18, h30⟩ := ih
    cases hc : c.hasSnake with
    | false =>
      rw [Update_nothing m c snake (Or.inl hc)]
      exact ⟨hmin, hmax, hper, h18, h30⟩
    | true =>
      cases hs : snake.segments with
      | nil =>
        rw [Update_nothing m c snake (Or.inr hs)]
        exact ⟨hmin, hmax, hper, h18, h30⟩
      | cons head body =>
        have h3 : 3 ≤ snake.segments.length := by
          rcases hsnake with h0 | h3
          · rw [hs] at h0; cases h0
          · exact h3
        obtain ⟨_, hd, _, _, hmin', hmax', hper'⟩ := Update_cons m c snake head body hc hs
        have hn : (3 : K) ≤ (snake.segments.length : K) := by
          have : ((3 : Nat) : K) ≤ (snake.segments.length : K) := Nat.cast_le.mpr h3
          simpa using this
        have hdes1 : (18 : K) ≤
            min (c.minDistance + c.distancePerSegment * ((snake.segments.length : K) - 3))
              c.maxDistance := by
          rw [hmin, hmax, hper]
          apply le_min
          · have : (0 : K) ≤ 0.4 * ((snake.segments.length : K) - 3) :=
              mul_nonneg (by norm_num) (by linarith)
            linarith
          · norm_num
        have hdes2 :
            min (c.minDistance + c.distancePerSegment * ((snake.segments.length : K) - 3))
              c.maxDistance ≤ (30 : K) := by
          rw [hmax]
          exact min_le_right _ _
        refine ⟨by rw [hmin', hmin], by rw [hmax', hmax], by rw [hper', hper], ?_, ?_⟩
        · rw [hd]
          linarith
        · rw [hd]
          linarith

/-- C13. Camera follow is exponential smoothing. With a null snake or an empty segment list
`Update` changes nothing. Otherwise, for a snake of `n` segments with head `head`,
`camera.target` becomes `head`, `cameraDistance` becomes
`0.95 * cameraDistance + 0.05 * min(minDistance + distancePerSegment * (n - 3), maxDistance)`,
the target position is computed from the new distance, and each coordinate of the camera
position becomes `0.95 * old + 0.05 * target`. In every controller reached from the
constructor by `Initialize` and by updates on snakes of at least 3 segments,
`distancePerSegment = 0.4`, `[minDistance, maxDistance] = [18, 30]` and `cameraDistance`
(20 at the start) lies in `[18, 30]`. -/
theorem Update_exponential_smoothing (m : Libm K) (c : CameraController K)
    (snake : Snake K) :
    ((c.hasSnake = false ∨ snake.segments = []) → c.Update m snake = c) ∧
    (∀ head, c.hasSnake = true → snake.segments[0]? = some head →
      (c.Update m snake).camera.target = head ∧
      (c.Update m snake).cameraDistance =
        0.95 * c.cameraDistance +
          0.05 * min (c.minDistance + c.distancePerSegment * ((snake.segments.length : K) - 3))
            c.maxDistance ∧
      (c.Update m snake).targetPosition =
        ⟨head.x + (c.Update m snake).cameraDistance * m.cosf (c.cameraAngle * m.DEG2RAD),
         (c.Update m snake).cameraDistance * 0.6,
         head.z + (c.Update m snake).cameraDistance * m.sinf (c.cameraAngle * m.DEG2RAD)⟩ ∧
      (c.Update m snake).camera.position.x =
        0.95 * c.camera.position.x + 0.05 * (c.Update m snake).targetPosition.x ∧
      (c.Update m snake).camera.position.y =
        0.95 * c.camera.position.y + 0.05 * (c.Update m snake).targetPosition.y ∧
      (c.Update m snake).camera.position.z =
        0.95 * c.camera.position.z + 0.05 * (c.Update m snake).targetPosition.z) ∧
    ((ctor c.camera c.targetPosition).cameraDistance = 20) ∧
    (Reachable m c →
      c.minDistance = 18 ∧ c.maxDistance = 30 ∧ c.distancePerSegment = 0.4 ∧
      18 ≤ c.cameraDistance ∧ c.cameraDistance ≤ 30 ∧
      ((snake.segments = [] ∨ 3 ≤ snake.segments.length) →
        18 ≤ (c.Update m snake).cameraDistance ∧ (c.Update m snake).cameraDistance ≤ 30)) := by
  refine ⟨Update_nothing m c snake, fun head hc hhead => ?_, rfl, fun hr => ?_⟩
  · obtain ⟨body, hs⟩ := Game.cons_of_head _ _ hhead
    obtain ⟨h1, h2, h3, h4, _⟩ := Update_cons m c snake head body hc hs
    refine ⟨h1, by rw [h2]; ring, h3, ?_, ?_, ?_⟩
    · rw [h4]; ring
    · rw [h4]; ring
    · rw [h4]; ring
  · obtain ⟨b1, b2, b3, b4, b5⟩ := Reachable.bounds m c hr
    refine ⟨b1, b2, b3, b4, b5, fun hsnake => ?_⟩
    obtain ⟨_, _, _, b4', b5'⟩ := Reachable.bounds m _ (Reachable.update snake hr hsnake)
    exact ⟨b4', b5'⟩

/-- Witness of C13: the camera after `Initialize`, updated on the start snake. -/
theorem Update_exponential_smoothing_witness :
    Reachable ratLibm startCamera ∧ startCamera.hasSnake = true ∧
    startSnake.segments[0]? = some ⟨0, 0.5, 0⟩ ∧
    (startCamera.Update ratLibm startSnake).camera.target = ⟨0, 0.5, 0⟩ ∧
    18 ≤ (startCamera.Update ratLibm startSnake).cameraDistance ∧
    (startCamera.Update ratLibm startSnake).cameraDistance ≤ 30 := by
  have hr : Reachable ratLibm startCamera := Reachable.ofInitialize (Reachable.ofCtor _ _)
  obtain ⟨_, hstep, _, hreach⟩ := Update_exponential_smoothing ratLibm startCamera startSnake
  obtain ⟨_, _, _, _, _, hnext⟩ := hreach hr
  exact ⟨hr, rfl, rfl, (hstep ⟨0, 0.5, 0⟩ rfl rfl).1, hnext (Or.inr (by decide))⟩

end CameraController

/-! ## Properties of `Snake::Update` over exact square roots -/

section ExactDistance

variable {K : Type} [LinearOrderedField K]

theorem Libm.ExactSqrt.sqrtf_mul_self (m : Libm K) (hm : m.ExactSqrt) (y : K) (hy : 0 ≤ y) :
    m.sqrtf (y * y) = y := by
  obtain ⟨h1, h2⟩ := hm (y * y) (mul_self_nonneg y)
  exact (mul_self_inj h1 hy).mp h2

theorem Libm.ExactSqrt.sqrtf_zero (m : Libm K) (hm : m.ExactSqrt) : m.sqrtf 0 = 0 := by
  have h := Libm.ExactSqrt.sqrtf_mul_self m hm 0 le_rfl
  simpa using h

theorem sum_squares_nonneg (a b c : K) : 0 ≤ a * a + b * b + c * c := by
  have ha := mul_self_nonneg a
  have hb := mul_self_nonneg b
  have hc := mul_self_nonneg c
  linarith

theorem Vector3Distance_nonneg (m : Libm K) (hm : m.ExactSqrt) (a b : Vector3 K) :
    0 ≤ Vector3Distance m a b :=
  (hm _ (sum_squares_nonneg _ _ _)).1

theorem Vector3Distance_self (m : Libm K) (hm : m.ExactSqrt) (a : Vector3 K) :
    Vector3Distance m a a = 0 := by
  unfold Vector3Distance
  simp only [sub_self, mul_zero, add_zero]
  exact Libm.ExactSqrt.sqrtf_zero m hm

/-- The `else` branch of the interpolation, taken when the distance `d` to the target is not
below the step `delta ≥ 0`: the new position is on the segment toward the target, at
distance exactly `d - delta` from it. -/
theorem advance_spec (m : Libm K) (hm : m.ExactSqrt) (segment target : Vector3 K)
    (delta : K) (hdelta : 0 ≤ delta)
    (hfar : ¬ Vector3Distance m segment target < delta) :
    (∃ c, 0 ≤ c ∧ c ≤ 1 ∧
      Vector3Add segment
          (Vector3Scale (Vector3Normalize m (Vector3Subtract target segment)) delta)
        = Vector3Add segment (Vector3Scale (Vector3Subtract target segment) c)) ∧
    Vector3Distance m
        (Vector3Add segment
          (Vector3Scale (Vector3Normalize m (Vector3Subtract target segment)) delta)) target
      = Vector3Distance m segment target - delta := by
  have hle : delta ≤ Vector3Distance m segment target := not_lt.mp hfar
  obtain ⟨hd0, hdd⟩ := hm _ (sum_squares_nonneg (target.x - segment.x)
    (target.y - segment.y) (target.z - segment.z))
  unfold Vector3Distance at hle ⊢
  unfold Vector3Normalize Vector3Subtract Vector3Add Vector3Scale
  dsimp only at hle ⊢
  generalize hS : m.sqrtf ((target.x - segment.x) * (target.x - segment.x) +
    (target.y - segment.y) * (target.y - segment.y) +
    (target.z - segment.z) * (target.z - segment.z)) = d at hle hd0 hdd ⊢
  by_cases hd : d = 0
  · have hdel : delta = 0 := le_antisymm (by rw [hd] at hle; exact hle) hdelta
    subst hdel
    rw [if_neg (by simpa using hd)]
    refine ⟨⟨0, le_rfl, zero_le_one, by simp⟩, ?_⟩
    simp only [mul_zero, add_zero, sub_zero]
    exact hS
  · rw [if_pos hd]
    have hdpos : 0 < d := lt_of_le_of_ne hd0 (Ne.symm hd)
    refine ⟨⟨1 / d * delta, by positivity, ?_, ?_⟩, ?_⟩
    · rw [one_div, inv_mul_le_iff₀ hdpos]
      simpa using hle
    · simp only [mul_assoc]
    · have harg : (target.x - (segment.x + (target.x - segment.x) * (1 / d) * delta)) *
            (target.x - (segment.x + (target.x - segment.x) * (1 / d) * delta)) +
          (target.y - (segment.y + (target.y - segment.y) * (1 / d) * delta)) *
            (target.y - (segment.y + (target.y - segment.y) * (1 / d) * delta)) +
          (target.z - (segment.z + (target.z - segment.z) * (1 / d) * delta)) *
            (target.z - (segment.z + (target.z - segment.z) * (1 / d) * delta))
          = (d - delta) * (d - delta) := by
        have e : ∀ v : K, v - v * (1 / d) * delta = v * ((d - delta) / d) := by
          intro v
          field_simp
          ring
        have ex : target.x - (segment.x + (target.x - segment.x) * (1 / d) * delta)
            = (target.x - segment.x) * ((d - delta) / d) := by
          rw [← e]; ring
        have ey : target.y - (segment.y + (target.y - segment.y) * (1 / d) * delta)
            = (target.y - segment.y) * ((d - delta) / d) := by
          rw [← e]; ring
        have ez : target.z - (segment.z + (target.z - segment.z) * (1 / d) * delta)
            = (target.z - segment.z) * ((d - delta) / d) := by
          rw [← e]; ring
        rw [ex, ey, ez]
        have : (target.x - segment.x) * ((d - delta) / d) *
              ((target.x - segment.x) * ((d - delta) / d)) +
            (target.y - segment.y) * ((d - delta) / d) *
              ((target.y - segment.y) * ((d - delta) / d)) +
            (target.z - segment.z) * ((d - delta) / d) *
              ((target.z - segment.z) * ((d - delta) / d))
            = ((target.x - segment.x) * (target.x - segment.x) +
                (target.y - segment.y) * (target.y - segment.y) +
                (target.z - segment.z) * (target.z - segment.z)) *
              (((d - delta) / d) * ((d - delta) / d)) := by ring
        rw [this, ← hdd]
        field_simp
      rw [harg]
      exact Libm.ExactSqrt.sqrtf_mul_self m hm (d - delta) (by linarith)

end ExactDistance

namespace Snake

variable {K : Type} [LinearOrderedField K]

/-- The head is interpolated like the body segments, with index `0`. -/
theorem followStep_zero (m : Libm K) (baseSpeed deltaTime : K) (segment target : Vector3 K) :
    followStep m baseSpeed deltaTime 0 segment target =
      if Vector3Distance m segment target < baseSpeed * deltaTime then target
      else
        Vector3Add segment
          (Vector3Scale (Vector3Normalize m (Vector3Subtract target segment))
            (baseSpeed * deltaTime)) := by
  unfold followStep
  simp

/-- `Update` on a moving snake with a head and a head target: every segment that has a
target is replaced by its `followStep`, and `isMoving` is cleared when the head snaps. -/
theorem Update_moving (m : Libm K) (s : Snake K) (deltaTime : K)
    (head target : Vector3 K) (body targets : List (Vector3 K))
    (hmoving : s.isMoving = true) (hseg : s.segments = head :: body)
    (htar : s.targetPositions = target :: targets) :
    s.Update m deltaTime = some
      { s with
        segments :=
          followStep m s.baseSpeed deltaTime 0 head target ::
            followLoop m s.baseSpeed deltaTime 1 body targets
        isMoving :=
          !decide (Vector3Distance m head target < s.baseSpeed * deltaTime) } := by
  unfold Update
  rw [hmoving, hseg, htar, followStep_zero]
  simp only [Bool.not_true, Bool.false_eq_true, if_false]
  split <;> rename_i h <;> simp [h, hmoving]

/-- After `Update` on a moving snake, segment `i` is the `followStep` of the old segment `i`
toward target `i`. -/
theorem Update_getElem? (m : Libm K) (s s' : Snake K) (deltaTime : K)
    (hmoving : s.isMoving = true) (hupd : s.Update m deltaTime = some s')
    (i : Nat) (segment target : Vector3 K)
    (hs : s.segments[i]? = some segment) (ht : s.targetPositions[i]? = some target) :
    s'.segments[i]? = some (followStep m s.baseSpeed deltaTime i segment target) := by
  obtain ⟨head, body, hseg⟩ : ∃ head body, s.segments = head :: body := by
    cases hseg : s.segments with
    | nil => simp [hseg] at hs
    | cons a l => exact ⟨a, l, rfl⟩
  obtain ⟨t0, targets, htar⟩ : ∃ t0 targets, s.targetPositions = t0 :: targets := by
    cases htar : s.targetPositions with
    | nil => simp [htar] at ht
    | cons a l => exact ⟨a, l, rfl⟩
  rw [Update_moving m s deltaTime head t0 body targets hmoving hseg htar] at hupd
  cases hupd
  rw [hseg] at hs
  rw [htar] at ht
  cases i with
  | zero =>
    simp only [List.getElem?_cons_zero, Option.some.injEq] at hs ht
    subst hs ht
    simp
  | succ j =>
    simp only [List.getElem?_cons_succ] at hs ht ⊢
    have hfl := followLoop_getElem? m s.baseSpeed deltaTime 1 body targets j _ _ hs ht
    rw [Nat.add_comm 1 j] at hfl
    exact hfl

/-- One interpolation step with a non-negative step length and exact square roots: snap when
closer than the step, else advance on the segment toward the target by exactly the step; the
distance to the target does not grow. -/
theorem followStep_spec (m : Libm K) (hm : m.ExactSqrt) (baseSpeed deltaTime : K) (i : Nat)
    (segment target : Vector3 K) (hstep : 0 ≤ baseSpeed * (1 + 0.1 * (i : K)) * deltaTime) :
    (Vector3Distance m segment target < baseSpeed * (1 + 0.1 * (i : K)) * deltaTime →
      followStep m baseSpeed deltaTime i segment target = target) ∧
    (¬ Vector3Distance m segment target < baseSpeed * (1 + 0.1 * (i : K)) * deltaTime →
      (∃ c, 0 ≤ c ∧ c ≤ 1 ∧
        followStep m baseSpeed deltaTime i segment target
          = Vector3Add segment (Vector3Scale (Vector3Subtract target segment) c)) ∧
      Vector3Distance m (followStep m baseSpeed deltaTime i segment target) target
        = Vector3Distance m segment target
          - baseSpeed * (1 + 0.1 * (i : K)) * deltaTime) ∧
    Vector3Distance m (followStep m baseSpeed deltaTime i segment target) target
      ≤ Vector3Distance m segment target := by
  by_cases hnear :
      Vector3Distance m segment target < baseSpeed * (1 + 0.1 * (i : K)) * deltaTime
  · have hsnap : followStep m baseSpeed deltaTime i segment target = target := by
      unfold followStep
      simp only [if_pos hnear]
    refine ⟨fun _ => hsnap, fun h => absurd hnear h, ?_⟩
    rw [hsnap, Vector3Distance_self m hm]
    exact Vector3Distance_nonneg m hm _ _
  · have hgo : followStep m baseSpeed deltaTime i segment target =
        Vector3Add segment
          (Vector3Scale (Vector3Normalize m (Vector3Subtract target segment))
            (baseSpeed * (1 + 0.1 * (i : K)) * deltaTime)) := by
      unfold followStep
      simp only [if_neg hnear]
    obtain ⟨hline, hdist⟩ := advance_spec m hm segment target _ hstep hnear
    rw [← hgo] at hline hdist
    refine ⟨fun h => absurd h hnear, fun _ => ⟨hline, hdist⟩, ?_⟩
    rw [hdist]
    linarith

/-- The base speed of `Update` for a snake of `3 ≤ n < 2^64` segments. -/
theorem baseSpeed_eq (s : Snake K) (h3 : 3 ≤ s.segments.length)
    (h64 : s.segments.length < 2 ^ 64) :
    s.baseSpeed =
      min (s.moveSpeed * (1 + 0.05 * ((s.segments.length : K) - 3))) (3 * s.moveSpeed) := by
  unfold baseSpeed
  rw [Game.sizeMinus3_eq _ h3 h64, Nat.cast_sub h3]
  push_cast
  congr 1 <;> ring

/-- C11. `Snake::Update` interpolates linearly toward the grid targets without overshoot,
for an exact square root. With `isMoving = false` it changes nothing. With `isMoving = true`,
equally long lists of `3 ≤ n < 2^64` entries, `deltaTime ≥ 0` and `moveSpeed ≥ 0`, let
`base = min(moveSpeed * (1 + 0.05 * (n - 3)), 3 * moveSpeed)` and
`step_i = base * (1 + 0.1 * i) * deltaTime`. Then `Update` returns with the same number of
segments and the same targets, a segment `i` whose distance `d_i` to its target is below
`step_i` ends on its target, every other segment ends on the straight segment toward its
target at distance exactly `d_i - step_i` from it, and no distance to a target grows. -/
theorem Update_interpolates (m : Libm K) (hm : m.ExactSqrt) (s : Snake K) (deltaTime : K)
    (hdt : 0 ≤ deltaTime) :
    (s.isMoving = false → s.Update m deltaTime = some s) ∧
    (s.isMoving = true → s.segments.length = s.targetPositions.length →
      3 ≤ s.segments.length → s.segments.length < 2 ^ 64 → 0 ≤ s.moveSpeed →
      ∃ s', s.Update m deltaTime = some s' ∧
        s'.segments.length = s.segments.length ∧
        s'.targetPositions = s.targetPositions ∧
        ∀ (i : Nat) (segment target : Vector3 K),
          s.segments[i]? = some segment → s.targetPositions[i]? = some target →
          ∃ segment', s'.segments[i]? = some segment' ∧
            (Vector3Distance m segment target <
                min (s.moveSpeed * (1 + 0.05 * ((s.segments.length : K) - 3)))
                  (3 * s.moveSpeed) * (1 + 0.1 * (i : K)) * deltaTime →
              segment' = target) ∧
            (¬ Vector3Distance m segment target <
                min (s.moveSpeed * (1 + 0.05 * ((s.segments.length : K) - 3)))
                  (3 * s.moveSpeed) * (1 + 0.1 * (i : K)) * deltaTime →
              (∃ c, 0 ≤ c ∧ c ≤ 1 ∧
                segment' = Vector3Add segment
                  (Vector3Scale (Vector3Subtract target segment) c)) ∧
              Vector3Distance m segment' target =
                Vector3Distance m segment target -
                  min (s.moveSpeed * (1 + 0.05 * ((s.segments.length : K) - 3)))
                    (3 * s.moveSpeed) * (1 + 0.1 * (i : K)) * deltaTime) ∧
            Vector3Distance m segment' target ≤ Vector3Distance m segment target) := by
  refine ⟨fun hstill => by simp [Update, hstill], fun hmoving hlen h3 h64 hspeed => ?_⟩
  have hs : s.segments ≠ [] := by
    intro h0; rw [h0] at h3; simp at h3
  have ht : s.targetPositions ≠ [] := by
    intro h0; rw [h0] at hlen; rw [hlen] at h3; simp at h3
  obtain ⟨s', hs', _, htar⟩ := Update_isSome m s deltaTime hs ht
  refine ⟨s', hs', Update_length m s s' deltaTime hs', htar, ?_⟩
  intro i segment target hseg htgt
  have hn : (3 : K) ≤ (s.segments.length : K) := by
    have : ((3 : Nat) : K) ≤ (s.segments.length : K) := Nat.cast_le.mpr h3
    simpa using this
  have hbase : 0 ≤ s.baseSpeed := by
    rw [baseSpeed_eq s h3 h64]
    apply le_min
    · apply mul_nonneg hspeed
      have : (0 : K) ≤ 0.05 * ((s.segments.length : K) - 3) :=
        mul_nonneg (by norm_num) (by linarith)
      linarith
    · linarith
  have hi : (0 : K) ≤ 1 + 0.1 * (i : K) := by
    have : (0 : K) ≤ (i : K) := Nat.cast_nonneg i
    have : (0 : K) ≤ 0.1 * (i : K) := mul_nonneg (by norm_num) this
    linarith
  have hstep : 0 ≤ s.baseSpeed * (1 + 0.1 * (i : K)) * deltaTime :=
    mul_nonneg (mul_nonneg hbase hi) hdt
  have hspec := followStep_spec m hm s.baseSpeed deltaTime i segment target hstep
  rw [baseSpeed_eq s h3 h64] at hspec
  exact ⟨_, Update_getElem? m s s' deltaTime hmoving hs' i segment target hseg htgt,
    by rw [baseSpeed_eq s h3 h64]; exact hspec⟩

/-- Witness of C11 over the real numbers with `Real.sqrt`: the snake `steppedSnake` and a
frame of a tenth of a second. -/
theorem Update_interpolates_witness :
    Libm.ExactSqrt (⟨Real.sqrt, Real.cos, Real.sin, Real.pi / 180⟩ : Libm ℝ) ∧
    (0 : ℝ) ≤ 1 / 10 ∧
    ∃ s', Snake.Update (⟨Real.sqrt, Real.cos, Real.sin, Real.pi / 180⟩ : Libm ℝ)
        (steppedSnake ℝ) (1 / 10) = some s' ∧
      s'.segments.length = 3 := by
  have hm : Libm.ExactSqrt (⟨Real.sqrt, Real.cos, Real.sin, Real.pi / 180⟩ : Libm ℝ) :=
    fun x hx => ⟨Real.sqrt_nonneg x, Real.mul_self_sqrt hx⟩
  have hdt : (0 : ℝ) ≤ 1 / 10 := by norm_num
  obtain ⟨s', hs', hlen, _⟩ :=
    (Update_interpolates _ hm (steppedSnake ℝ) (1 / 10) hdt).2 rfl rfl (by decide)
      (by simp [steppedSnake]) (by simp [steppedSnake])
  exact ⟨hm, hdt, s', hs', hlen⟩

end Snake

/-! ## `Snake::Update` when the head arrives by a full step -/

namespace Snake

/-- `Update` clears `isMoving` exactly when the head was closer to its target than one step
(strictly): a head that is exactly one step away is moved but the flag is kept. -/
theorem Update_isMoving {K : Type} [LinearOrderedField K] (m : Libm K) (s s' : Snake K)
    (deltaTime : K) (head target : Vector3 K)
    (hmoving : s.isMoving = true) (hhead : s.segments[0]? = some head)
    (htarget : s.targetPositions[0]? = some target)
    (hupd : s.Update m deltaTime = some s') :
    s'.isMoving = false ↔ Vector3Distance m head target < s.baseSpeed * deltaTime := by
  obtain ⟨body, hseg⟩ := Game.cons_of_head _ _ hhead
  obtain ⟨targets, htar⟩ := Game.cons_of_head _ _ htarget
  rw [Update_moving m s deltaTime head target body targets hmoving hseg htar] at hupd
  cases hupd
  simp

theorem ratLibm_sqrtf_one : ratLibm.sqrtf 1 = 1 := by
  simp [ratLibm]

theorem steppedSnake_baseSpeed : (steppedSnake ℚ).baseSpeed = 5 := by
  rw [baseSpeed_eq _ (by decide) (by simp [steppedSnake])]
  simp only [steppedSnake, List.length_cons, List.length_nil]
  norm_num

theorem steppedSnake_distance (x : ℚ) :
    Vector3Distance ratLibm ⟨x, 1 / 2, 0⟩ ⟨x + 1, 1 / 2, 0⟩ = 1 := by
  simp only [Vector3Distance]
  norm_num
  exact ratLibm_sqrtf_one

/-- C12 fails on the code at the boundary `distance = step`. With three segments,
`moveSpeed = 5` and `deltaTime = 1/5` the head is exactly one step (`5 * 1/5 = 1`) from its
target: the test `distance < step` is false, the `else` branch moves the head onto the
target, and `isMoving` stays `true`. After this `Update` the head's position equals its
target position, and the next `Move` is ignored (it returns the state unchanged). -/
theorem Update_arrives_still_moving :
    Snake.Update ratLibm (steppedSnake ℚ) (1 / 5) = some arrivedSnake ∧
    arrivedSnake.segments[0]? = arrivedSnake.targetPositions[0]? ∧
    arrivedSnake.isMoving = true ∧
    arrivedSnake.Move = some arrivedSnake := by
  refine ⟨?_, rfl, rfl, rfl⟩
  rw [Update_moving ratLibm (steppedSnake ℚ) (1 / 5) ⟨0, 1 / 2, 0⟩ ⟨1, 1 / 2, 0⟩
    [⟨-1, 1 / 2, 0⟩, ⟨-2, 1 / 2, 0⟩] [⟨0, 1 / 2, 0⟩, ⟨-1, 1 / 2, 0⟩] rfl rfl rfl,
    steppedSnake_baseSpeed]
  have d0 := steppedSnake_distance 0
  have d1 := steppedSnake_distance (-1)
  have d2 := steppedSnake_distance (-2)
  norm_num at d0 d1 d2
  have h0 : followStep ratLibm 5 (1 / 5) 0 ⟨0, 1 / 2, 0⟩ ⟨1, 1 / 2, 0⟩
      = (⟨1, 1 / 2, 0⟩ : Vector3 ℚ) := by
    rw [followStep_zero, d0]
    simp only [Vector3Normalize, Vector3Subtract, Vector3Add, Vector3Scale]
    norm_num [ratLibm_sqrtf_one]
  have h1 : followStep ratLibm 5 (1 / 5) 1 ⟨-1, 1 / 2, 0⟩ ⟨0, 1 / 2, 0⟩
      = (⟨0, 1 / 2, 0⟩ : Vector3 ℚ) := by
    unfold followStep
    simp only [d1]
    norm_num
  have h2 : followStep ratLibm 5 (1 / 5) 2 ⟨-2, 1 / 2, 0⟩ ⟨-1, 1 / 2, 0⟩
      = (⟨-1, 1 / 2, 0⟩ : Vector3 ℚ) := by
    unfold followStep
    simp only [d2]
    norm_num
  simp only [followLoop, h0, h1, h2, d0]
  norm_num [arrivedSnake, steppedSnake]

end Snake

end Snake3D
